import Mathlib

/-!
# sonoscli: presentation maps, discovery, token store, Spotify client, commands

A shallow embedding of parts of `internal/sonos`, `internal/spotify` and
`internal/cli` together with theorems about them.  Go strings are modelled by
`String` (the XML decoder only produces valid UTF-8), Go maps with string keys
by association lists without repeated keys, and a Go `(value, error)` result by
`Except` or by a pair with an optional error.  Functions of the Go standard
library that the code calls (decoders, URL parsing, the HTTP transport, the
clock) are parameters.
-/

namespace Sonos

/-! ## Go maps with string keys -/

/-- A Go `map[string]V`: the entries in the order their keys were first stored.
A well-formed map holds every key once (`GoMap.WF`). -/
abbrev GoMap (V : Type) := List (String × V)

namespace GoMap

/-- The empty map `map[string]V{}`. -/
def empty {V : Type} : GoMap V := []

/-- The lookup `v, ok := m[k]`. -/
def lookup {V : Type} : GoMap V → String → Option V
  | [], _ => none
  | (k', v) :: rest, k => if k' = k then some v else lookup rest k

/-- The assignment `m[k] = v`: overwrites the value of an existing key, adds the key otherwise. -/
def store {V : Type} : GoMap V → String → V → GoMap V
  | [], k, v => [(k, v)]
  | (k', v') :: rest, k, v => if k' = k then (k', v) :: rest else (k', v') :: store rest k v

/-- The keys of the map. -/
def keys {V : Type} (m : GoMap V) : List String := m.map Prod.fst

/-- The builtin `len(m)`. -/
def len {V : Type} (m : GoMap V) : Nat := m.length

/-- No key occurs twice. -/
def WF {V : Type} (m : GoMap V) : Prop := (keys m).Nodup

instance instDecidableWF {V : Type} (m : GoMap V) : Decidable (WF m) :=
  inferInstanceAs (Decidable (keys m).Nodup)

end GoMap

/-! ## `strings.TrimSpace` -/

/-- The predicate `unicode.IsSpace`: the Latin-1 spaces `\t \n \v \f \r`, space, U+0085, U+00A0
and the code points with the White_Space property. -/
def isSpace (c : Char) : Bool :=
  let n := c.toNat
  (9 ≤ n && n ≤ 13) || n == 0x20 || n == 0x85 || n == 0xA0 || n == 0x1680 ||
  (0x2000 ≤ n && n ≤ 0x200A) || n == 0x2028 || n == 0x2029 || n == 0x202F ||
  n == 0x205F || n == 0x3000

/-- The function `strings.TrimSpace`: the string without its leading and trailing white space. -/
def TrimSpace (s : String) : String :=
  ⟨(s.data.dropWhile isSpace).rdropWhile isSpace⟩

/-! ## `smapi_pmap.go` -/

/-- The struct `pmapCategory`: the attributes `id`, `mappedId` and `mappedID` of a `<Category>`;
an attribute that is absent decodes to the empty string. -/
structure pmapCategory where
  ID : String
  MappedID : String
  AltID : String
  deriving DecidableEq, Repr

/-- The struct `pmapCustomCategory`: the attributes `stringId` and `mappedId` of a
`<CustomCategory>`. -/
structure pmapCustomCategory where
  StringID : String
  MappedID : String
  deriving DecidableEq, Repr

/-- The anonymous struct behind `pmapEnvelope.SearchCategories`. -/
structure pmapSearchCategories where
  Categories : List pmapCategory
  CustomCategories : List pmapCustomCategory
  deriving DecidableEq, Repr

/-- The struct `pmapEnvelope`; `SearchCategories` is a pointer that stays nil (`none`) when the
document has no `<SearchCategories>` element. -/
structure pmapEnvelope where
  SearchCategories : Option pmapSearchCategories
  deriving DecidableEq, Repr

/-- The body of the loop over `env.SearchCategories.Categories`. -/
def categoryStep (out : GoMap String) (c : pmapCategory) : GoMap String :=
  let id := TrimSpace c.ID
  let mapped := TrimSpace c.MappedID
  let mapped := if mapped = "" then TrimSpace c.AltID else mapped
  if id ≠ "" ∧ mapped ≠ "" then GoMap.store out id mapped else out

/-- The body of the loop over `env.SearchCategories.CustomCategories`. -/
def customCategoryStep (out : GoMap String) (c : pmapCustomCategory) : GoMap String :=
  let id := TrimSpace c.StringID
  let mapped := TrimSpace c.MappedID
  if id ≠ "" ∧ mapped ≠ "" then GoMap.store out id mapped else out

/-- The function `parsePresentationMapXML`.  The decoder `xml.Unmarshal` into a `pmapEnvelope`
belongs to the Go standard library and is a parameter. -/
def parsePresentationMapXML (xmlUnmarshal : List UInt8 → Except String pmapEnvelope)
    (raw : List UInt8) : Except String (GoMap String) :=
  match xmlUnmarshal raw with
  | .error err => .error err
  | .ok env =>
    let out : GoMap String := GoMap.empty
    match env.SearchCategories with
    | none => .ok out
    | some sc =>
      let out := sc.Categories.foldl categoryStep out
      let out := sc.CustomCategories.foldl customCategoryStep out
      .ok out

/-- The decoded `<SearchCategories>` of the document of `TestParsePresentationMapXML`. -/
def testSearchCategories : pmapSearchCategories :=
  { Categories := [⟨"tracks", "search:track", ""⟩, ⟨"albums", "search:album", ""⟩],
    CustomCategories := [⟨"Blogs", "SBLG"⟩] }

/-- The decoded document of `TestParsePresentationMapXML`. -/
def testPresentationMap : pmapEnvelope := { SearchCategories := some testSearchCategories }

/-- A decoded document with partial vendor data: a Category without id, a Category whose
`mappedId` and `mappedID` are both blank, a CustomCategory with a blank `stringId`, and two
complete entries. -/
def partialPresentationMap : pmapEnvelope :=
  { SearchCategories := some
      { Categories := [⟨"", "search:x", ""⟩, ⟨"tracks", "search:track", ""⟩, ⟨"albums", " ", ""⟩],
        CustomCategories := [⟨"  ", "SXYZ"⟩, ⟨"Blogs", "SBLG"⟩] } }

/-- A decoded document in which one service-specific Category carries its mapped value in
the alternate-cased attribute `mappedID`. -/
def altPresentationMap : pmapEnvelope :=
  { SearchCategories := some
      { Categories := [⟨"tracks", "search:track", ""⟩, ⟨" genres ", " ", "search:genre"⟩,
          ⟨"albums", "search:album", "ignored"⟩],
        CustomCategories := [⟨"Blogs", "SBLG"⟩] } }

/-- A decoded document in which several entries share a trimmed key: two Categories `genres`,
a Category `Blogs`, and three CustomCategories `Blogs` of which the last has a blank
`mappedId`. -/
def sharedKeysPresentationMap : pmapEnvelope :=
  { SearchCategories := some
      { Categories := [⟨"genres", "search:genre1", ""⟩, ⟨" genres ", "", "search:genre2"⟩,
          ⟨"Blogs", "search:blog", ""⟩],
        CustomCategories := [⟨" Blogs", "SBLG1"⟩, ⟨"Blogs ", " SBLG2 "⟩, ⟨"Blogs", " "⟩] } }

/-! ## Device sets (`discover.go`) -/

/-- Modelled from the spec: the struct `Device` of the data model,
`{IP, Name, UDN, Icon?, Invisible}`; its declaration is not among the sources. -/
structure Device where
  IP : String
  Name : String
  UDN : String := ""
  Icon : String := ""
  Invisible : Bool := false
  deriving DecidableEq, Repr

/-- Modelled from the spec: one round of the key-wise merge of `preferDeviceSet` (not among
the sources): a key that the accumulated set already holds keeps its value, a key it lacks is
added with the value of the candidate. -/
def mergeMissing (acc : GoMap Device) (kv : String × Device) : GoMap Device :=
  match GoMap.lookup acc kv.1 with
  | some _ => acc
  | none => GoMap.store acc kv.1 kv.2

/-- Modelled from the spec: the function `preferDeviceSet` of `discover.go`, of which only the
test `TestPreferDeviceSet` is among the sources.  The merge rule reads: if `candidate` is empty,
keep `best` unchanged; if `len(candidate) > len(best)`, `candidate` replaces `best` entirely; if
the sizes are equal, the two sets are merged key-wise, existing keys of `best` are never
overwritten and keys present only in `candidate` are added.  A smaller, non-empty candidate is
ignored (the test's "Smaller candidate should be ignored"). -/
def preferDeviceSet (best candidate : GoMap Device) : GoMap Device :=
  if GoMap.len candidate = 0 then best
  else if GoMap.len candidate > GoMap.len best then candidate
  else if GoMap.len candidate = GoMap.len best then candidate.foldl mergeMissing best
  else best

/-- The set `best` of `TestPreferDeviceSet`. -/
def testBest : GoMap Device := [("1.1.1.1", { IP := "1.1.1.1", Name := "A" })]

/-- The set `candidateLarger` of `TestPreferDeviceSet`. -/
def testCandidateLarger : GoMap Device :=
  [("2.2.2.2", { IP := "2.2.2.2", Name := "B" }), ("3.3.3.3", { IP := "3.3.3.3", Name := "C" })]

/-- The set `bestEqual` of `TestPreferDeviceSet`. -/
def testBestEqual : GoMap Device :=
  [("10.0.0.1", { IP := "10.0.0.1", Name := "X" }), ("10.0.0.2", { IP := "10.0.0.2", Name := "Y" })]

/-- The set `candidateEqual` of `TestPreferDeviceSet`. -/
def testCandidateEqual : GoMap Device :=
  [("10.0.0.2", { IP := "10.0.0.2", Name := "Y2" }),
   ("10.0.0.3", { IP := "10.0.0.3", Name := "Z" })]

/-! ## Discovery with fallback (`discover.go`) -/

/-- Modelled from the spec: a Go `error` value of the discovery stages, which is
`context.DeadlineExceeded` or any other error. -/
inductive DiscoverError where
  | deadlineExceeded
  | other (msg : String)
  deriving DecidableEq, Repr

/-- Modelled from the spec: the struct `DiscoverOptions` (`options{Timeout, IncludeInvisible}`),
whose declaration is not among the sources; the timeout is a duration in nanoseconds. -/
structure DiscoverOptions where
  Timeout : Nat := 0
  IncludeInvisible : Bool := false
  deriving DecidableEq, Repr

/-- Modelled from the spec: the four strategy functions that the tests substitute
(`ssdpDiscoverFunc`, `discoverViaTopologyFunc`, `scanAnySpeakerIPFunc`, `discoverViaTopologyFromIPFunc`).  Their
context and timeout arguments only bound real time and are left out; `R` is the type
`ssdpResult` of one SSDP response.  The SSDP stage returns its responses together with an
optional error, as the Go function returns `([]ssdpResult, error)`. -/
structure Strategies (R : Type) where
  ssdpDiscoverFunc : List R × Option DiscoverError
  discoverViaTopologyFunc : List R → Bool → Except DiscoverError (List Device)
  scanAnySpeakerIPFunc : Except DiscoverError String
  discoverViaTopologyFromIPFunc : String → Bool → Except DiscoverError (List Device)

/-- Modelled from the spec: the function `Discover` of `discover.go`, of which only the test
`TestDiscoverFallsBackWhenSSDPDeadlineExceeded` is among the sources.  The stages are those of
the ordered fallback: (1) the SSDP query; (2) if SSDP responses exist, topology from those
candidates, returned when it succeeds; (3) otherwise, also when the SSDP stage timed out or
failed, the network scan for one speaker IP; (4) topology from that IP, whose failure fails the
whole call.  When the scan fails the call fails with the topology error of stage 2 if there is
one, with the scan's error otherwise. -/
def Discover {R : Type} (s : Strategies R) (opts : DiscoverOptions) :
    Except DiscoverError (List Device) :=
  let results := s.ssdpDiscoverFunc.1
  let viaSSDP : Option (Except DiscoverError (List Device)) :=
    if results.isEmpty then none
    else some (s.discoverViaTopologyFunc results opts.IncludeInvisible)
  match viaSSDP with
  | some (.ok devs) => .ok devs
  | attempt =>
    match s.scanAnySpeakerIPFunc with
    | .error scanErr =>
      match attempt with
      | some (.error topErr) => .error topErr
      | _ => .error scanErr
    | .ok ip => s.discoverViaTopologyFromIPFunc ip opts.IncludeInvisible

/-- The strategies of `TestDiscoverFallsBackWhenSSDPDeadlineExceeded`. -/
def testStrategies : Strategies Unit :=
  { ssdpDiscoverFunc := ([], some DiscoverError.deadlineExceeded)
    discoverViaTopologyFunc := fun _ _ => .error (DiscoverError.other "no ssdp candidates")
    scanAnySpeakerIPFunc := .ok "192.168.1.10"
    discoverViaTopologyFromIPFunc := fun ip _ =>
      .ok [{ IP := ip, Name := "Office", UDN := "RINCON_x" }] }

/-! ## Music service descriptors (`music_services.go`) -/

/-- Modelled from the spec: the enum `{Anonymous, DeviceLink, AppLink}` of the `Auth` attribute
of `<Policy>`. -/
inductive MusicServiceAuth where
  | Anonymous
  | DeviceLink
  | AppLink
  deriving DecidableEq, Repr

/-- Modelled from the spec: a decoded `<Service>` element, that is its attributes, the `Auth`
attribute of the nested
`<Policy>`, and the `Uri` attributes of the optional `<PresentationMap>` and `<Manifest>`
(empty when the element is absent). -/
structure serviceElement where
  Id : Int
  Name : String
  Version : String
  Uri : String
  SecureUri : String
  ContainerType : String
  Capabilities : Int
  PolicyAuth : String
  PresentationMapUri : String := ""
  ManifestUri : String := ""
  deriving DecidableEq, Repr

/-- Modelled from the spec: the struct `MusicService` of the data model, whose declaration is
not among the sources. -/
structure MusicService where
  Id : Int
  Name : String
  Version : String
  Uri : String
  SecureUri : String
  ContainerType : String
  Capabilities : Int
  Auth : MusicServiceAuth
  ServiceType : String
  PresentationMapURI : String
  ManifestURI : String
  deriving DecidableEq, Repr

/-- Modelled from the spec: the mapping of `<Policy Auth=...>` to the enum
`{Anonymous, DeviceLink, AppLink}`, where an unrecognized value is a parse error.  The code
(`music_services.go`) is not among the sources. -/
def parseMusicServiceAuth (auth : String) : Except String MusicServiceAuth :=
  if auth = "Anonymous" then .ok .Anonymous
  else if auth = "DeviceLink" then .ok .DeviceLink
  else if auth = "AppLink" then .ok .AppLink
  else .error ("unknown auth mode: " ++ auth)

/-- Modelled from the spec: the `MusicService` built from one `<Service>` element by
`parseServiceDescriptorListXML`, which is not among the sources (only its test is).
`ServiceType` is `Id*256 + 7` formatted as a decimal string, an integer of the specification
without a machine width. -/
def serviceFromElement (e : serviceElement) : Except String MusicService :=
  match parseMusicServiceAuth e.PolicyAuth with
  | .error err => .error err
  | .ok auth =>
    .ok { Id := e.Id, Name := e.Name, Version := e.Version, Uri := e.Uri,
          SecureUri := e.SecureUri, ContainerType := e.ContainerType,
          Capabilities := e.Capabilities, Auth := auth,
          ServiceType := toString (e.Id * 256 + 7),
          PresentationMapURI := e.PresentationMapUri, ManifestURI := e.ManifestUri }

/-- Modelled from the spec: the function `parseServiceDescriptorListXML` (not among the
sources) on the decoded `<Service>` elements of a document, in document order; the first
element that fails to parse fails the call. -/
def parseServiceDescriptorList : List serviceElement → Except String (List MusicService)
  | [] => .ok []
  | e :: rest =>
    match serviceFromElement e with
    | .error err => .error err
    | .ok svc =>
      match parseServiceDescriptorList rest with
      | .error err => .error err
      | .ok svcs => .ok (svc :: svcs)

/-- The `<Service>` elements of the document of `TestParseServiceDescriptorListXML`. -/
def testServices : List serviceElement :=
  [{ Id := 9, Name := "Spotify", Version := "1.1", Uri := "http://example.com/svc",
     SecureUri := "https://example.com/svc", ContainerType := "MService", Capabilities := 513,
     PolicyAuth := "DeviceLink", PresentationMapUri := "https://example.com/pmap.xml" },
   { Id := 163, Name := "Spreaker", Version := "1.1", Uri := "http://example.com/2",
     SecureUri := "https://example.com/2", ContainerType := "MService", Capabilities := 0,
     PolicyAuth := "Anonymous" },
   { Id := 999, Name := "Foo", Version := "1.0", Uri := "http://example.com/3",
     SecureUri := "https://example.com/3", ContainerType := "MService", Capabilities := 0,
     PolicyAuth := "AppLink", ManifestUri := "https://example.com/manifest.json" }]

/-! ## Favorites (`favorites.go`) -/

/-- Modelled from the spec: the struct `DIDLItem` of the data model,
`{ID, ParentID, Restricted, Title, Class, URI, ResMD?}`; its declaration is not among the
sources. -/
structure DIDLItem where
  ID : String := ""
  ParentID : String := ""
  Restricted : Bool := false
  Title : String := ""
  Class : String := ""
  URI : String := ""
  ResMD : String := ""
  deriving DecidableEq, Repr

/-- Modelled from the spec: the function `favoriteURI` of `favorites.go`, of which only the test
`TestFavoriteURI` is among the sources: if `item.URI` is non-empty, return it directly;
otherwise, if `item.ResMD` is non-empty, parse it as a DIDL-Lite fragment and return the first
item's `URI`; otherwise return the empty string.  A fragment that does not parse or holds no
item gives the empty string.  The XML parser `ParseDIDLItems` is a parameter. -/
def favoriteURI (ParseDIDLItems : String → Except String (List DIDLItem)) (item : DIDLItem) :
    String :=
  if item.URI ≠ "" then item.URI
  else if item.ResMD ≠ "" then
    match ParseDIDLItems item.ResMD with
    | .ok (first :: _) => first.URI
    | _ => ""
  else ""

/-- A stand-in for `ParseDIDLItems` on the fragment of `TestFavoriteURI`: one item whose `res`
text is `http://example.com/stream`. -/
def testParseDIDLItems (_ : String) : Except String (List DIDLItem) :=
  .ok [{ ID := "R:0/0/0", ParentID := "R:0/0", Restricted := true, Title := "X",
         URI := "http://example.com/stream" }]

/-! ## SMAPI token store (`smapi_tokens.go`) -/

/-- Modelled from the spec: the struct `SMAPITokenPair`, `{AuthToken, PrivateKey, UpdatedAt}`,
whose declaration is not among the sources; the time is in seconds since the Unix epoch. -/
structure SMAPITokenPair where
  AuthToken : String := ""
  PrivateKey : String := ""
  UpdatedAt : Int := 0
  deriving DecidableEq, Repr

/-- Modelled from the spec: the backing file of the token store, a single structured document
keyed by `serviceId` then `householdId` that stores one `SMAPITokenPair` per key, together with
the permission bits of the file. -/
structure tokenFile where
  Tokens : GoMap (GoMap SMAPITokenPair)
  Perm : Nat
  deriving DecidableEq, Repr

/-- Modelled from the spec: the store `FileSMAPITokenStore` with the state of its backing file,
`none` while the file does not exist.  Its declaration is not among the sources. -/
structure FileSMAPITokenStore where
  Path : String
  File : Option tokenFile
  deriving DecidableEq, Repr

/-- Modelled from the spec: the constructor `NewFileSMAPITokenStore` on a path where no file
exists yet (not among the sources). -/
def NewFileSMAPITokenStore (path : String) : FileSMAPITokenStore := { Path := path, File := none }

/-- Modelled from the spec: the method `Save` of the token store (`smapi_tokens.go` is not among
the sources, only `TestFileSMAPITokenStore_SaveLoad` is).  It fails with a store error on an I/O
failure, given by `ioFailure`; otherwise it rewrites the file with the pair stored under
`serviceId` then `householdId`, the other entries kept, and with the permissions `0600`. -/
def FileSMAPITokenStore.Save (ioFailure : Option String) (s : FileSMAPITokenStore)
    (serviceId householdId : String) (pair : SMAPITokenPair) :
    Except String FileSMAPITokenStore :=
  match ioFailure with
  | some err => .error err
  | none =>
    let tokens : GoMap (GoMap SMAPITokenPair) := (s.File.map tokenFile.Tokens).getD GoMap.empty
    let household : GoMap SMAPITokenPair := (GoMap.lookup tokens serviceId).getD GoMap.empty
    let file : tokenFile :=
      { Tokens := GoMap.store tokens serviceId (GoMap.store household householdId pair),
        Perm := 0o600 }
    .ok { Path := s.Path, File := some file }

/-- Modelled from the spec: the method `Load` of the token store (not among the sources), with
the Go result `(SMAPITokenPair, found, error)`: the pair stored under `serviceId` then
`householdId` and `true`, or the zero pair and `false` when there is none; an I/O failure,
given by `ioFailure`, is returned as the error. -/
def FileSMAPITokenStore.Load (ioFailure : Option String) (s : FileSMAPITokenStore)
    (serviceId householdId : String) : SMAPITokenPair × Bool × Option String :=
  match ioFailure with
  | some err => ({}, false, some err)
  | none =>
    match s.File with
    | none => ({}, false, none)
    | some f =>
      match GoMap.lookup f.Tokens serviceId with
      | none => ({}, false, none)
      | some household =>
        match GoMap.lookup household householdId with
        | none => ({}, false, none)
        | some pair => (pair, true, none)

/-! ## `spotify/client.go`: search types -/

namespace Spotify

/-- The rune mapping of `strings.ToLower`: `A`..`Z` go to `a`..`z`, the other ASCII characters
stay, and a character outside ASCII goes through `unicode.ToLower`, whose case tables belong to
the Go standard library and are a parameter. -/
def toLowerRune (unicodeToLower : Char → Char) (c : Char) : Char :=
  if c.toNat < 128 then
    if 65 ≤ c.toNat ∧ c.toNat ≤ 90 then Char.ofNat (c.toNat + 32) else c
  else unicodeToLower c

/-- The function `strings.ToLower`. -/
def ToLower (unicodeToLower : Char → Char) (s : String) : String :=
  ⟨s.data.map (toLowerRune unicodeToLower)⟩

/-- The type `SearchType`, a string. -/
abbrev SearchType := String

/-- The constant `TypeTrack`. -/
def TypeTrack : SearchType := "track"

/-- The constant `TypeAlbum`. -/
def TypeAlbum : SearchType := "album"

/-- The constant `TypePlaylist`. -/
def TypePlaylist : SearchType := "playlist"

/-- The constant `TypeShow`. -/
def TypeShow : SearchType := "show"

/-- The constant `TypeEpisode`. -/
def TypeEpisode : SearchType := "episode"

/-- The errors that the package `spotify` returns; an error of the standard library (URL
parsing, transport, reading a body, JSON decoding) is carried as its message. -/
inductive SpotifyError where
  | invalidType (s : String)
  | queryRequired
  | library (msg : String)
  | searchStatus (status : String) (body : List UInt8)
  | tokenStatus (status : String) (body : List UInt8)
  | emptyAccessToken
  | unsupportedType (typ : SearchType)
  deriving DecidableEq, Repr

/-- The function `ParseSearchType`; the Go result `(SearchType, error)` is a pair whose second
component is `none` for a nil error. -/
def ParseSearchType (unicodeToLower : Char → Char) (s : String) :
    SearchType × Option SpotifyError :=
  let t : SearchType := ToLower unicodeToLower (TrimSpace s)
  if t = TypeTrack ∨ t = TypeAlbum ∨ t = TypePlaylist ∨ t = TypeShow ∨ t = TypeEpisode then
    (ToLower unicodeToLower (TrimSpace s), none)
  else
    ("", some (SpotifyError.invalidType s))

end Spotify

/-! ## `spotify/client.go`: the client -/

namespace Spotify

/-- The type `url.Values`, a `map[string][]string`. -/
abbrev Values := GoMap (List String)

/-- The method `url.Values.Set`: the key gets the single value. -/
def Values.Set (v : Values) (key value : String) : Values := GoMap.store v key [value]

/-- The method `url.Values.Get`: the first value of the key, or the empty string. -/
def Values.Get (v : Values) (key : String) : String :=
  match GoMap.lookup v key with
  | some (x :: _) => x
  | _ => ""

/-- An HTTP request as the client builds it: the method, the address handed to `url.Parse`,
the query parameters of the request URL, the headers and the form of the body. -/
structure Request where
  Method : String
  URL : String
  Query : Values
  Header : GoMap String
  Form : Values
  deriving DecidableEq, Repr

/-- The body stream of a response: the bytes it delivers and the error, if any, that ends it in
place of the end of the stream. -/
structure Body where
  Data : List UInt8
  Err : Option String := none
  deriving DecidableEq, Repr

/-- The part of `http.Response` that the client reads. -/
structure Response where
  StatusCode : Int
  Status : String
  Body : Body
  deriving DecidableEq, Repr

/-- The call `io.ReadAll(io.LimitReader(body, n))`: the first `n` bytes when the stream has that
many, the whole stream and its ending error otherwise. -/
def readAllLimit (b : Body) (n : Nat) : List UInt8 × Option String :=
  if n ≤ b.Data.length then (b.Data.take n, none) else (b.Data, b.Err)

/-- The anonymous struct that `fetchClientCredentialsToken` decodes. -/
structure tokenResponse where
  AccessToken : String
  TokenType : String
  ExpiresIn : Int
  deriving DecidableEq, Repr

/-- An item of `tracks.items`: `id`, `name`, `uri`, `external_urls.spotify`, the names of
`artists` and `album.name`. -/
structure trackItem where
  ID : String
  Name : String
  URI : String
  Spotify : String
  Artists : List String
  Album : String
  deriving DecidableEq, Repr

/-- An item of `albums.items`. -/
structure albumItem where
  ID : String
  Name : String
  URI : String
  Spotify : String
  Artists : List String
  deriving DecidableEq, Repr

/-- An item of `playlists.items`, with `owner.display_name` and `tracks.total`. -/
structure playlistItem where
  ID : String
  Name : String
  URI : String
  Spotify : String
  OwnerDisplayName : String
  TracksTotal : Int
  deriving DecidableEq, Repr

/-- An item of `shows.items`. -/
structure showItem where
  ID : String
  Name : String
  URI : String
  Spotify : String
  Publisher : String
  deriving DecidableEq, Repr

/-- An item of `episodes.items`, with `show.name`. -/
structure episodeItem where
  ID : String
  Name : String
  URI : String
  Spotify : String
  ShowName : String
  deriving DecidableEq, Repr

/-- What the client takes from outside: the standard library (`url.Parse` with the query
parameters the address already carries, `http.NewRequestWithContext`, `base64`, `json.Unmarshal`
into each of the anonymous structs), the transport `c.HTTP.Do`, and the two readings of the
clock in `ensureToken` (in nanoseconds since the Unix epoch): `untilNow` inside `time.Until` and
`now` for `time.Now()` after the token was fetched. -/
structure World where
  urlParse : String → Except String Values
  newRequest : String → String → Values → Option String
  httpDo : Request → Except String Response
  base64 : String → String
  jsonToken : List UInt8 → Except String tokenResponse
  jsonTracks : List UInt8 → Except String (List trackItem)
  jsonAlbums : List UInt8 → Except String (List albumItem)
  jsonPlaylists : List UInt8 → Except String (List playlistItem)
  jsonShows : List UInt8 → Except String (List showItem)
  jsonEpisodes : List UInt8 → Except String (List episodeItem)
  untilNow : Int
  now : Int

/-- The zero `time.Time`, January 1 of year 1, in nanoseconds since the Unix epoch. -/
def zeroTime : Int := -62135596800 * 1000000000

/-- The constant `time.Second` in nanoseconds. -/
def Second : Int := 1000000000

/-- An `int64` product or sum: the value modulo `2^64` in the signed range. -/
def wrapInt64 (x : Int) : Int := (x + 2 ^ 63) % 2 ^ 64 - 2 ^ 63

/-- The method `time.Time.Sub`: the difference as a `time.Duration`, saturated at the largest
and the smallest `int64`. -/
def timeSub (t u : Int) : Int := max (-(2 ^ 63)) (min (2 ^ 63 - 1) (t - u))

/-- The struct `Client`; its `HTTP` field is `World.httpDo` and its mutex is left out. -/
structure Client where
  ClientID : String
  ClientSecret : String
  AccountsBaseURL : String
  APIBaseURL : String
  token : String
  tokenType : String
  expiresAt : Int
  deriving DecidableEq, Repr

/-- The constructor `New`. -/
def New (clientID clientSecret : String) : Client :=
  { ClientID := clientID, ClientSecret := clientSecret, tokenType := "Bearer",
    AccountsBaseURL := "https://accounts.spotify.com", APIBaseURL := "https://api.spotify.com",
    token := "", expiresAt := zeroTime }

/-- The struct `Result`; its field `Type` is `Type_` here, `Type` being a reserved word. -/
structure Result where
  Type_ : SearchType
  ID : String
  URI : String
  URL : String
  Title : String
  Subtitle : String
  deriving DecidableEq, Repr

/-- The request that `fetchClientCredentialsToken` builds for an address whose query
parameters are `u`. -/
def tokenRequest (w : World) (c : Client) (u : Values) : Request :=
  { Method := "POST", URL := c.AccountsBaseURL ++ "/api/token", Query := u,
    Header := GoMap.store
      (GoMap.store GoMap.empty "Content-Type" "application/x-www-form-urlencoded")
      "Authorization" ("Basic " ++ w.base64 (c.ClientID ++ ":" ++ c.ClientSecret)),
    Form := Values.Set GoMap.empty "grant_type" "client_credentials" }

/-- The method `fetchClientCredentialsToken`: the token, its type and its lifetime in seconds,
or an error; and the requests handed to the transport. -/
def fetchClientCredentialsToken (w : World) (c : Client) :
    Except SpotifyError (String × String × Int) × List Request :=
  match w.urlParse (c.AccountsBaseURL ++ "/api/token") with
  | .error e => (.error (.library e), [])
  | .ok u =>
    match w.newRequest "POST" (c.AccountsBaseURL ++ "/api/token") u with
    | some e => (.error (.library e), [])
    | none =>
      let req := tokenRequest w c u
      match w.httpDo req with
      | .error e => (.error (.library e), [req])
      | .ok resp =>
        if resp.StatusCode < 200 ∨ resp.StatusCode ≥ 300 then
          (.error (.tokenStatus resp.Status (readAllLimit resp.Body 4096).1), [req])
        else
          match readAllLimit resp.Body (1 <<< 20) with
          | (_, some e) => (.error (.library e), [req])
          | (b, none) =>
            match w.jsonToken b with
            | .error e => (.error (.library e), [req])
            | .ok tr =>
              if tr.AccessToken = "" then (.error .emptyAccessToken, [req])
              else
                let expiresIn := if tr.ExpiresIn ≤ 0 then 3600 else tr.ExpiresIn
                (.ok (tr.AccessToken, tr.TokenType, expiresIn), [req])

/-- The outcome of `ensureToken`: the error or nil, the client afterwards and the requests
handed to the transport. -/
structure TokenOutcome where
  err : Option SpotifyError
  client : Client
  sent : List Request
  deriving DecidableEq, Repr

/-- The method `ensureToken`. -/
def ensureToken (w : World) (c : Client) : TokenOutcome :=
  if c.token ≠ "" ∧ timeSub c.expiresAt w.untilNow > 30 * Second then
    { err := none, client := c, sent := [] }
  else
    match fetchClientCredentialsToken w c with
    | (.error err, sent) => { err := some err, client := c, sent := sent }
    | (.ok (token, tokenType, expiresIn), sent) =>
      { err := none,
        client := { c with
          token := token,
          tokenType := if TrimSpace tokenType ≠ "" then TrimSpace tokenType else c.tokenType,
          expiresAt := w.now + wrapInt64 (wrapInt64 expiresIn * Second) },
        sent := sent }

/-- The names that the loop over `it.Artists` appends: the non-empty ones, in order. -/
def artistNames (artists : List String) : List String :=
  artists.foldl (fun names a => if a ≠ "" then names ++ [a] else names) []

/-- The function `strings.Join`. -/
def Join (elems : List String) (sep : String) : String := sep.intercalate elems

/-- The `Result` of one item of `tracks.items`. -/
def trackResult (it : trackItem) : Result :=
  let artists := artistNames it.Artists
  let sub := Join artists ", "
  let sub :=
    if it.Album ≠ "" ∧ sub ≠ "" then sub ++ " — " ++ it.Album
    else if it.Album ≠ "" then it.Album
    else sub
  { Type_ := TypeTrack, ID := it.ID, URI := it.URI, URL := it.Spotify, Title := it.Name,
    Subtitle := sub }

/-- The `Result` of one item of `albums.items`. -/
def albumResult (it : albumItem) : Result :=
  { Type_ := TypeAlbum, ID := it.ID, URI := it.URI, URL := it.Spotify, Title := it.Name,
    Subtitle := Join (artistNames it.Artists) ", " }

/-- The `Result` of one item of `playlists.items`. -/
def playlistResult (it : playlistItem) : Result :=
  let sub := TrimSpace it.OwnerDisplayName
  let sub :=
    if it.TracksTotal > 0 then
      if sub ≠ "" then sub ++ " — " ++ toString it.TracksTotal ++ " tracks"
      else toString it.TracksTotal ++ " tracks"
    else sub
  { Type_ := TypePlaylist, ID := it.ID, URI := it.URI, URL := it.Spotify, Title := it.Name,
    Subtitle := sub }

/-- The `Result` of one item of `shows.items`. -/
def showResult (it : showItem) : Result :=
  { Type_ := TypeShow, ID := it.ID, URI := it.URI, URL := it.Spotify, Title := it.Name,
    Subtitle := TrimSpace it.Publisher }

/-- The `Result` of one item of `episodes.items`. -/
def episodeResult (it : episodeItem) : Result :=
  { Type_ := TypeEpisode, ID := it.ID, URI := it.URI, URL := it.Spotify, Title := it.Name,
    Subtitle := TrimSpace it.ShowName }

/-- The `switch typ` at the end of `Search`: the results decoded from the body `b`. -/
def searchResults (w : World) (typ : SearchType) (b : List UInt8) :
    Except SpotifyError (List Result) :=
  if typ = TypeTrack then
    match w.jsonTracks b with
    | .error e => .error (.library e)
    | .ok items => .ok (items.map trackResult)
  else if typ = TypeAlbum then
    match w.jsonAlbums b with
    | .error e => .error (.library e)
    | .ok items => .ok (items.map albumResult)
  else if typ = TypePlaylist then
    match w.jsonPlaylists b with
    | .error e => .error (.library e)
    | .ok items => .ok (items.map playlistResult)
  else if typ = TypeShow then
    match w.jsonShows b with
    | .error e => .error (.library e)
    | .ok items => .ok (items.map showResult)
  else if typ = TypeEpisode then
    match w.jsonEpisodes b with
    | .error e => .error (.library e)
    | .ok items => .ok (items.map episodeResult)
  else .error (.unsupportedType typ)

/-- The query parameters that `Search` sets on those the address already carries; `query` and
`market` are trimmed and `limit` is clamped by then. -/
def searchQuery (u : Values) (query : String) (typ : SearchType) (limit : Int)
    (market : String) : Values :=
  let q := Values.Set u "q" query
  let q := Values.Set q "type" typ
  let q := Values.Set q "limit" (toString limit)
  if market ≠ "" then Values.Set q "market" market else q

/-- The request that `Search` builds. -/
def searchRequest (c : Client) (q : Values) : Request :=
  { Method := "GET", URL := c.APIBaseURL ++ "/v1/search", Query := q,
    Header := GoMap.store GoMap.empty "Authorization" (c.tokenType ++ " " ++ c.token),
    Form := GoMap.empty }

/-- The outcome of `Search`: the results or the error, the client afterwards and the requests
handed to the transport, in order. -/
structure SearchOutcome where
  result : Except SpotifyError (List Result)
  client : Client
  sent : List Request

/-- The method `Search`. -/
def Search (w : World) (c : Client) (query : String) (typ : SearchType) (limit : Int)
    (market : String) : SearchOutcome :=
  let query := TrimSpace query
  if query = "" then { result := .error .queryRequired, client := c, sent := [] }
  else
    let limit := if limit ≤ 0 then 10 else limit
    let limit := if limit > 50 then 50 else limit
    let market := TrimSpace market
    let tok := ensureToken w c
    match tok.err with
    | some err => { result := .error err, client := tok.client, sent := tok.sent }
    | none =>
      let c := tok.client
      match w.urlParse (c.APIBaseURL ++ "/v1/search") with
      | .error e => { result := .error (.library e), client := c, sent := tok.sent }
      | .ok u =>
        let q := searchQuery u query typ limit market
        match w.newRequest "GET" (c.APIBaseURL ++ "/v1/search") q with
        | some e => { result := .error (.library e), client := c, sent := tok.sent }
        | none =>
          let req := searchRequest c q
          match w.httpDo req with
          | .error e => { result := .error (.library e), client := c, sent := tok.sent ++ [req] }
          | .ok resp =>
            if resp.StatusCode < 200 ∨ resp.StatusCode ≥ 300 then
              { result := .error (.searchStatus resp.Status (readAllLimit resp.Body 4096).1),
                client := c, sent := tok.sent ++ [req] }
            else
              match readAllLimit resp.Body (4 <<< 20) with
              | (_, some e) =>
                { result := .error (.library e), client := c, sent := tok.sent ++ [req] }
              | (b, none) =>
                { result := searchResults w typ b, client := c, sent := tok.sent ++ [req] }

/-- The number of requests to the token endpoint among `sent`: the token request is the only
one with the method `POST`. -/
def tokenCalls (sent : List Request) : Nat := (sent.filter (fun r => r.Method = "POST")).length

/-- The server of `TestSearch_Tracks_ClientCredentials` seen from the client at the clock
reading `t`: the token endpoint answers `tok` as a `Bearer` token for 3600 seconds, the search
endpoint answers one track. -/
def testWorld (t : Int) : World :=
  { urlParse := fun _ => .ok GoMap.empty
    newRequest := fun _ _ _ => none
    httpDo := fun _ => .ok { StatusCode := 200, Status := "200 OK", Body := { Data := [] } }
    base64 := fun s => s
    jsonToken := fun _ => .ok { AccessToken := "tok", TokenType := "Bearer", ExpiresIn := 3600 }
    jsonTracks := fun _ => .ok
      [{ ID := "t1", Name := "Song 1", URI := "spotify:track:t1",
         Spotify := "https://open.spotify.com/track/t1", Artists := ["Artist A"],
         Album := "Album X" }]
    jsonAlbums := fun _ => .ok []
    jsonPlaylists := fun _ => .ok []
    jsonShows := fun _ => .ok []
    jsonEpisodes := fun _ => .ok []
    untilNow := t
    now := t }

end Spotify

/-! ## `cli/group_audio.go` and `cli/search.go` -/

namespace Cmd

/-- The error `*strconv.NumError` of `strconv.Atoi`, with the input it refused; whether it is a
syntax or a range error is not recorded. -/
structure NumError where
  Num : String
  deriving DecidableEq, Repr

/-- The function `strconv.Atoi` on a 64-bit platform: an optional sign followed by one or more
decimal digits whose value fits an `int64`; anything else is an error. -/
def Atoi (s : String) : Except NumError Int :=
  let digits :=
    match s.data with
    | '-' :: rest => rest
    | '+' :: rest => rest
    | all => all
  if digits = [] ∨ ¬ digits.all (fun ch => 48 ≤ ch.toNat ∧ ch.toNat ≤ 57) then
    .error { Num := s }
  else
    let n : Int := digits.foldl (fun n ch => n * 10 + ((ch.toNat : Int) - 48)) 0
    let v : Int := if s.data.head? = some '-' then -n else n
    if v < -(2 ^ 63) ∨ v > 2 ^ 63 - 1 then .error { Num := s } else .ok v

/-- The interface `groupAudioClient`; each method returns its Go result, with `none` for a nil
error. -/
structure groupAudioClient where
  GetGroupVolume : Except String Int
  SetGroupVolume : Int → Option String
  GetGroupMute : Except String Bool
  SetGroupMute : Bool → Option String

/-- The errors that the commands return. -/
inductive CmdError where
  | usage (msg : String)
  | target (msg : String)
  | atoi (err : NumError)
  | client (msg : String)
  | action (msg : String)
  | search (msg : String)
  | noResults
  | indexOutOfRange (index : Int) (got : Nat)
  | runtimePanic
  deriving DecidableEq, Repr

/-- The `RunE` of the command `volume set <0-100>` behind `cobra.ExactArgs(1)`: the error it
returns and the volumes it passed to `SetGroupVolume`.  The functions `validateTarget` and
`newGroupAudioClient` are not among the sources; their results are parameters. -/
def groupVolumeSet (validateTarget : Option String)
    (newGroupAudioClient : Except String groupAudioClient) (args : List String) :
    Option CmdError × List Int :=
  match args with
  | [arg] =>
    match validateTarget with
    | some err => (some (.target err), [])
    | none =>
      match Atoi arg with
      | .error err => (some (.atoi err), [])
      | .ok v =>
        match newGroupAudioClient with
        | .error err => (some (.client err), [])
        | .ok c => ((c.SetGroupVolume v).map CmdError.action, [v])
  | _ => (some (.usage "accepts 1 arg(s)"), [])

/-- A group audio client that accepts every call. -/
def acceptingClient : groupAudioClient :=
  { GetGroupVolume := .ok 0, SetGroupVolume := fun _ => none,
    GetGroupMute := .ok false, SetGroupMute := fun _ => none }

/-- The index expression `xs[i]` of Go on a slice: `none` stands for the run-time panic of an
index out of range. -/
def sliceIndex {α : Type} (xs : List α) (i : Int) : Option α :=
  if i < 0 then none else xs[i.toNat]?

/-- The part of the `RunE` of `search spotify` that picks the result for `--open` and
`--enqueue`: the flag checks, the default of `--index`, and the selection from the results of
the search.  `searched` is the outcome of parsing the type, creating the client and searching;
the result is the error returned up to the selection, or the selected result, or `none` when
neither flag asks for one. -/
def selectResult (doOpen doEnqueue : Bool) (ip name : String) (index : Int)
    (searched : Except String (List Spotify.Result)) :
    Except CmdError (Option Spotify.Result) :=
  if doOpen && doEnqueue then .error (.usage "use only one of --open or --enqueue")
  else if (doOpen || doEnqueue) && ip = "" && name = "" then
    .error (.usage "--open/--enqueue require --ip or --name")
  else
    let index := if index ≤ 0 then 1 else index
    match searched with
    | .error err => .error (.search err)
    | .ok results =>
      if results.length = 0 then .error .noResults
      else if doOpen || doEnqueue then
        if index > results.length then .error (.indexOutOfRange index results.length)
        else
          match sliceIndex results (index - 1) with
          | some selected => .ok (some selected)
          | none => .error .runtimePanic
      else .ok none

/-- Three results of a search, for the selection by `--index`. -/
def testResults : List Spotify.Result :=
  [{ Type_ := "track", ID := "t1", URI := "spotify:track:t1", URL := "", Title := "Song 1",
     Subtitle := "" },
   { Type_ := "track", ID := "t2", URI := "spotify:track:t2", URL := "", Title := "Song 2",
     Subtitle := "" },
   { Type_ := "track", ID := "t3", URI := "spotify:track:t3", URL := "", Title := "Song 3",
     Subtitle := "" }]

end Cmd

end Sonos

namespace Sonos

/-! ## Lemmas on Go maps -/

namespace GoMap

theorem lookup_store_self {V : Type} (m : GoMap V) (k : String) (v : V) :
    lookup (store m k v) k = some v := by
  induction m with
  | nil => simp [store, lookup]
  | cons kv rest ih =>
    obtain ⟨k', v'⟩ := kv
    by_cases h : k' = k
    · simp [store, lookup, h]
    · simp [store, lookup, h, ih]

theorem lookup_store_ne {V : Type} (m : GoMap V) (k k₀ : String) (v : V) (hne : k ≠ k₀) :
    lookup (store m k v) k₀ = lookup m k₀ := by
  induction m with
  | nil => simp [store, lookup, hne]
  | cons kv rest ih =>
    obtain ⟨k', v'⟩ := kv
    by_cases h : k' = k
    · subst h
      simp [store, lookup, hne]
    · by_cases h₀ : k' = k₀
      · subst h₀
        simp [store, lookup, h]
      · simp [store, lookup, h, h₀, ih]

theorem keys_store {V : Type} (m : GoMap V) (k : String) (v : V) :
    keys (store m k v) = if k ∈ keys m then keys m else keys m ++ [k] := by
  induction m with
  | nil => simp [store, keys]
  | cons kv rest ih =>
    obtain ⟨k', v'⟩ := kv
    by_cases h : k' = k
    · subst h
      simp [store, keys]
    · have hk : ¬ k = k' := fun e => h e.symm
      have ih' : List.map Prod.fst (store rest k v) =
          if k ∈ List.map Prod.fst rest then List.map Prod.fst rest
          else List.map Prod.fst rest ++ [k] := ih
      simp only [store, keys, h, if_false, List.map_cons, List.mem_cons, hk, false_or, ih']
      split <;> simp

theorem mem_keys_store {V : Type} (m : GoMap V) (k k₀ : String) (v : V) :
    k₀ ∈ keys (store m k v) ↔ k₀ = k ∨ k₀ ∈ keys m := by
  rw [keys_store]
  split
  · constructor
    · intro h; exact Or.inr h
    · rintro (h | h)
      · subst h; assumption
      · exact h
  · simp [or_comm]

theorem WF_store {V : Type} (m : GoMap V) (k : String) (v : V) (h : WF m) :
    WF (store m k v) := by
  unfold WF at *
  rw [keys_store]
  split
  · exact h
  · rename_i hk
    rw [List.nodup_append]
    refine ⟨h, List.nodup_singleton k, ?_⟩
    intro a ha hb
    rw [List.mem_singleton] at hb
    subst hb
    exact hk ha

theorem len_store {V : Type} (m : GoMap V) (k : String) (v : V) :
    len (store m k v) = if k ∈ keys m then len m else len m + 1 := by
  have h := congrArg List.length (keys_store m k v)
  unfold keys at h
  unfold keys len
  by_cases hk : k ∈ List.map Prod.fst m
  · rw [if_pos hk] at h ⊢
    simpa using h
  · rw [if_neg hk] at h ⊢
    simpa using h

theorem lookup_eq_none_iff {V : Type} (m : GoMap V) (k : String) :
    lookup m k = none ↔ k ∉ keys m := by
  induction m with
  | nil => simp [lookup, keys]
  | cons kv rest ih =>
    obtain ⟨k', v'⟩ := kv
    by_cases h : k' = k
    · simp [lookup, keys, h]
    · have hk : ¬ k = k' := fun e => h e.symm
      simpa [lookup, keys, h, hk] using ih

theorem mem_keys_of_lookup {V : Type} (m : GoMap V) (k : String) (v : V)
    (h : lookup m k = some v) : k ∈ keys m := by
  by_contra hk
  rw [← lookup_eq_none_iff] at hk
  rw [hk] at h
  cases h

end GoMap

/-! ## Loops that store the usable entries of a list

Both loops of `parsePresentationMapXML` have the same shape: an element `x` with key `key x` and
value `val x` is stored when both are non-empty and is skipped otherwise. -/

section StoreLoop

variable {α : Type} (step : GoMap String → α → GoMap String) (key val : α → String)

theorem lookup_foldl_of_no_writer
    (hstep : ∀ m x, step m x =
      if key x ≠ "" ∧ val x ≠ "" then GoMap.store m (key x) (val x) else m)
    (xs : List α) (m : GoMap String) (k₀ : String)
    (hno : ∀ x ∈ xs, key x = k₀ → ¬ (key x ≠ "" ∧ val x ≠ "")) :
    GoMap.lookup (xs.foldl step m) k₀ = GoMap.lookup m k₀ := by
  induction xs generalizing m with
  | nil => rfl
  | cons y ys ih =>
    rw [List.foldl_cons, ih (step m y) (fun x hx => hno x (List.mem_cons_of_mem y hx)), hstep]
    by_cases hu : key y ≠ "" ∧ val y ≠ ""
    · rw [if_pos hu]
      by_cases hk : key y = k₀
      · exact absurd hu (hno y (List.mem_cons_self y ys) hk)
      · exact GoMap.lookup_store_ne m (key y) k₀ (val y) hk
    · rw [if_neg hu]

theorem mem_keys_foldl
    (hstep : ∀ m x, step m x =
      if key x ≠ "" ∧ val x ≠ "" then GoMap.store m (key x) (val x) else m)
    (xs : List α) (m : GoMap String) (k₀ : String)
    (hk : k₀ ∈ GoMap.keys (xs.foldl step m)) :
    k₀ ∈ GoMap.keys m ∨ ∃ x ∈ xs, key x = k₀ ∧ key x ≠ "" ∧ val x ≠ "" := by
  induction xs generalizing m with
  | nil => exact Or.inl hk
  | cons y ys ih =>
    rw [List.foldl_cons] at hk
    rcases ih (step m y) hk with h | ⟨x, hx, hx'⟩
    · rw [hstep] at h
      by_cases hu : key y ≠ "" ∧ val y ≠ ""
      · rw [if_pos hu, GoMap.mem_keys_store] at h
        rcases h with h | h
        · exact Or.inr ⟨y, List.mem_cons_self y ys, h.symm, hu⟩
        · exact Or.inl h
      · rw [if_neg hu] at h
        exact Or.inl h
    · exact Or.inr ⟨x, List.mem_cons_of_mem y hx, hx'⟩

theorem lookup_foldl_of_writer
    (hstep : ∀ m x, step m x =
      if key x ≠ "" ∧ val x ≠ "" then GoMap.store m (key x) (val x) else m)
    (xs : List α) (m : GoMap String) (hnodup : (xs.map key).Nodup)
    (x : α) (hx : x ∈ xs) (hu : key x ≠ "" ∧ val x ≠ "") :
    GoMap.lookup (xs.foldl step m) (key x) = some (val x) := by
  induction xs generalizing m with
  | nil => cases hx
  | cons y ys ih =>
    rw [List.map_cons, List.nodup_cons] at hnodup
    rw [List.foldl_cons]
    rcases List.mem_cons.mp hx with rfl | hmem
    · have hno : ∀ z ∈ ys, key z = key x → ¬ (key z ≠ "" ∧ val z ≠ "") := by
        intro z hz hkz
        exact absurd (hkz ▸ List.mem_map_of_mem key hz) hnodup.1
      rw [lookup_foldl_of_no_writer step key val hstep ys (step m x) (key x) hno, hstep,
        if_pos hu]
      exact GoMap.lookup_store_self m (key x) (val x)
    · exact ih (step m y) hnodup.2 hmem

theorem foldl_filter_usable
    (hstep : ∀ m x, step m x =
      if key x ≠ "" ∧ val x ≠ "" then GoMap.store m (key x) (val x) else m)
    (xs : List α) (m : GoMap String) :
    (xs.filter (fun x => decide (key x ≠ "" ∧ val x ≠ ""))).foldl step m = xs.foldl step m := by
  induction xs generalizing m with
  | nil => rfl
  | cons y ys ih =>
    by_cases hu : key y ≠ "" ∧ val y ≠ ""
    · rw [List.filter_cons_of_pos (by simpa using hu), List.foldl_cons, List.foldl_cons, ih]
    · rw [List.filter_cons_of_neg (by simpa using hu), List.foldl_cons, ih, hstep m y,
        if_neg hu]

theorem WF_foldl
    (hstep : ∀ m x, step m x =
      if key x ≠ "" ∧ val x ≠ "" then GoMap.store m (key x) (val x) else m)
    (xs : List α) (m : GoMap String) (h : GoMap.WF m) : GoMap.WF (xs.foldl step m) := by
  induction xs generalizing m with
  | nil => exact h
  | cons y ys ih =>
    rw [List.foldl_cons]
    apply ih
    rw [hstep]
    split
    · exact GoMap.WF_store m _ _ h
    · exact h

end StoreLoop

/-- The value that the loop over the categories stores: the trimmed `mappedId`, or the trimmed
`mappedID` when that is empty. -/
theorem categoryStep_eq (m : GoMap String) (c : pmapCategory) :
    categoryStep m c =
      if TrimSpace c.ID ≠ "" ∧
          (if TrimSpace c.MappedID = "" then TrimSpace c.AltID else TrimSpace c.MappedID) ≠ ""
      then GoMap.store m (TrimSpace c.ID)
          (if TrimSpace c.MappedID = "" then TrimSpace c.AltID else TrimSpace c.MappedID)
      else m := rfl

theorem customCategoryStep_eq (m : GoMap String) (c : pmapCustomCategory) :
    customCategoryStep m c =
      if TrimSpace c.StringID ≠ "" ∧ TrimSpace c.MappedID ≠ ""
      then GoMap.store m (TrimSpace c.StringID) (TrimSpace c.MappedID) else m := rfl

theorem parsePresentationMapXML_ok (xmlUnmarshal : List UInt8 → Except String pmapEnvelope)
    (raw : List UInt8) (env : pmapEnvelope) (sc : pmapSearchCategories)
    (hdec : xmlUnmarshal raw = .ok env) (hsc : env.SearchCategories = some sc) :
    parsePresentationMapXML xmlUnmarshal raw =
      .ok (sc.CustomCategories.foldl customCategoryStep
        (sc.Categories.foldl categoryStep GoMap.empty)) := by
  simp only [parsePresentationMapXML, hdec, hsc]

/-! ## Presentation maps -/

/-- C1: for a successfully decoded document whose Category ids and CustomCategory stringIds are
pairwise distinct after trimming, the mapping returned by `parsePresentationMapXML` holds, for
each Category with non-blank id and non-blank mapped value (the trimmed `mappedId`, or the
trimmed `mappedID` when `mappedId` is blank) and for each CustomCategory with non-blank
stringId and non-blank mappedId, the entry trimmed id -> trimmed mapped value, and every key of
the mapping is the trimmed id of such an entry. -/
theorem parsePresentationMapXML_entries
    (xmlUnmarshal : List UInt8 → Except String pmapEnvelope) (raw : List UInt8)
    (env : pmapEnvelope) (sc : pmapSearchCategories)
    (hdec : xmlUnmarshal raw = .ok env) (hsc : env.SearchCategories = some sc)
    (hdistinct : (sc.Categories.map (fun c => TrimSpace c.ID) ++
      sc.CustomCategories.map (fun c => TrimSpace c.StringID)).Nodup) :
    ∃ m, parsePresentationMapXML xmlUnmarshal raw = .ok m ∧
      (∀ c ∈ sc.Categories, TrimSpace c.ID ≠ "" →
        (TrimSpace c.MappedID ≠ "" →
          GoMap.lookup m (TrimSpace c.ID) = some (TrimSpace c.MappedID)) ∧
        (TrimSpace c.MappedID = "" → TrimSpace c.AltID ≠ "" →
          GoMap.lookup m (TrimSpace c.ID) = some (TrimSpace c.AltID))) ∧
      (∀ c ∈ sc.CustomCategories, TrimSpace c.StringID ≠ "" → TrimSpace c.MappedID ≠ "" →
        GoMap.lookup m (TrimSpace c.StringID) = some (TrimSpace c.MappedID)) ∧
      (∀ k ∈ GoMap.keys m,
        (∃ c ∈ sc.Categories, TrimSpace c.ID = k ∧ TrimSpace c.ID ≠ "" ∧
          (TrimSpace c.MappedID ≠ "" ∨ TrimSpace c.AltID ≠ "")) ∨
        (∃ c ∈ sc.CustomCategories, TrimSpace c.StringID = k ∧ TrimSpace c.StringID ≠ "" ∧
          TrimSpace c.MappedID ≠ "")) := by
  rw [List.nodup_append] at hdistinct
  obtain ⟨hcats, hcustoms, hdisj⟩ := hdistinct
  have hcat : ∀ c ∈ sc.Categories, ∀ v : String,
      (if TrimSpace c.MappedID = "" then TrimSpace c.AltID else TrimSpace c.MappedID) = v →
      TrimSpace c.ID ≠ "" → v ≠ "" →
      GoMap.lookup (sc.CustomCategories.foldl customCategoryStep
        (sc.Categories.foldl categoryStep GoMap.empty)) (TrimSpace c.ID) = some v := by
    intro c hc v hv hid hval
    subst hv
    rw [lookup_foldl_of_no_writer customCategoryStep (fun x => TrimSpace x.StringID)
      (fun x => TrimSpace x.MappedID) customCategoryStep_eq]
    · exact lookup_foldl_of_writer categoryStep (fun x => TrimSpace x.ID)
        (fun x => if TrimSpace x.MappedID = "" then TrimSpace x.AltID else TrimSpace x.MappedID)
        categoryStep_eq sc.Categories GoMap.empty hcats c hc ⟨hid, hval⟩
    · intro x hx hkx _
      exact hdisj (List.mem_map_of_mem (fun c => TrimSpace c.ID) hc)
        (hkx ▸ List.mem_map_of_mem (fun c => TrimSpace c.StringID) hx)
  refine ⟨_, parsePresentationMapXML_ok xmlUnmarshal raw env sc hdec hsc, ?_, ?_, ?_⟩
  · intro c hc hid
    constructor
    · intro hm
      exact hcat c hc _ (if_neg hm) hid hm
    · intro hm halt
      exact hcat c hc _ (if_pos hm) hid halt
  · intro c hc hid hm
    exact lookup_foldl_of_writer customCategoryStep (fun x => TrimSpace x.StringID)
      (fun x => TrimSpace x.MappedID) customCategoryStep_eq sc.CustomCategories _ hcustoms c hc
      ⟨hid, hm⟩
  · intro k hk
    rcases mem_keys_foldl customCategoryStep (fun x => TrimSpace x.StringID)
      (fun x => TrimSpace x.MappedID) customCategoryStep_eq sc.CustomCategories _ k hk with
      h | ⟨c, hc, hkc, hid, hm⟩
    · rcases mem_keys_foldl categoryStep (fun x => TrimSpace x.ID)
        (fun x => if TrimSpace x.MappedID = "" then TrimSpace x.AltID else TrimSpace x.MappedID)
        categoryStep_eq sc.Categories _ k h with h' | ⟨c, hc, hkc, hid, hm⟩
      · cases h'
      · refine Or.inl ⟨c, hc, hkc, hid, ?_⟩
        by_cases hmap : TrimSpace c.MappedID = ""
        · rw [if_pos hmap] at hm
          exact Or.inr hm
        · exact Or.inl hmap
    · exact Or.inr ⟨c, hc, hkc, hid, hm⟩

/-- The document of `TestParsePresentationMapXML` gives `tracks -> search:track` and
`Blogs -> SBLG`, and no key besides `tracks`, `albums` and `Blogs`. -/
theorem parsePresentationMapXML_entries_witness :
    ∃ m, parsePresentationMapXML (fun _ => .ok testPresentationMap) [] = .ok m ∧
      GoMap.lookup m "tracks" = some "search:track" ∧
      GoMap.lookup m "Blogs" = some "SBLG" ∧
      ∀ k ∈ GoMap.keys m, k ∈ ["tracks", "albums", "Blogs"] := by
  obtain ⟨m, hm, hcat, hcustom, hkeys⟩ :=
    parsePresentationMapXML_entries (fun _ => .ok testPresentationMap) [] testPresentationMap
      testSearchCategories rfl rfl (by decide)
  refine ⟨m, hm, ?_, ?_, ?_⟩
  · exact (hcat ⟨"tracks", "search:track", ""⟩ (by decide) (by decide)).1 (by decide)
  · exact hcustom ⟨"Blogs", "SBLG"⟩ (by decide) (by decide) (by decide)
  · intro k hk
    rcases hkeys k hk with ⟨c, hc, hkc, -⟩ | ⟨c, hc, hkc, -⟩
    · subst hkc
      clear hk
      revert c
      decide
    · subst hkc
      clear hk
      revert c
      decide

/-- C2: a Category with a non-blank id stores, for that id, the trimmed `mappedId` whenever it
is non-blank, whatever `mappedID` holds; it stores the trimmed `mappedID` when `mappedId` is
blank (or absent, which decodes to the empty string) and `mappedID` is non-blank; and when both
are blank it stores nothing, so `mappedID` is the stored value in the second case only.  This
holds for the loop body on any accumulated map, and for the mapping that
`parsePresentationMapXML` returns whenever no later Category and no CustomCategory has the same
trimmed id. -/
theorem parsePresentationMapXML_category_value (c : pmapCategory)
    (hid : TrimSpace c.ID ≠ "") :
    (∀ out : GoMap String,
      (TrimSpace c.MappedID ≠ "" →
        GoMap.lookup (categoryStep out c) (TrimSpace c.ID) = some (TrimSpace c.MappedID)) ∧
      (TrimSpace c.MappedID = "" → TrimSpace c.AltID ≠ "" →
        GoMap.lookup (categoryStep out c) (TrimSpace c.ID) = some (TrimSpace c.AltID)) ∧
      (TrimSpace c.MappedID = "" → TrimSpace c.AltID = "" → categoryStep out c = out)) ∧
    (∀ (xmlUnmarshal : List UInt8 → Except String pmapEnvelope) (raw : List UInt8)
      (env : pmapEnvelope) (sc : pmapSearchCategories) (pre post : List pmapCategory),
      xmlUnmarshal raw = .ok env → env.SearchCategories = some sc →
      sc.Categories = pre ++ c :: post →
      (∀ x ∈ post, TrimSpace x.ID ≠ TrimSpace c.ID) →
      (∀ x ∈ sc.CustomCategories, TrimSpace x.StringID ≠ TrimSpace c.ID) →
      ∃ m, parsePresentationMapXML xmlUnmarshal raw = .ok m ∧
        (TrimSpace c.MappedID ≠ "" →
          GoMap.lookup m (TrimSpace c.ID) = some (TrimSpace c.MappedID)) ∧
        (TrimSpace c.MappedID = "" → TrimSpace c.AltID ≠ "" →
          GoMap.lookup m (TrimSpace c.ID) = some (TrimSpace c.AltID))) := by
  have hstep : ∀ out : GoMap String,
      (TrimSpace c.MappedID ≠ "" →
        GoMap.lookup (categoryStep out c) (TrimSpace c.ID) = some (TrimSpace c.MappedID)) ∧
      (TrimSpace c.MappedID = "" → TrimSpace c.AltID ≠ "" →
        GoMap.lookup (categoryStep out c) (TrimSpace c.ID) = some (TrimSpace c.AltID)) ∧
      (TrimSpace c.MappedID = "" → TrimSpace c.AltID = "" → categoryStep out c = out) := by
    intro out
    refine ⟨?_, ?_, ?_⟩
    · intro hm
      rw [categoryStep_eq, if_neg hm, if_pos ⟨hid, hm⟩]
      exact GoMap.lookup_store_self out _ _
    · intro hm halt
      rw [categoryStep_eq, if_pos hm, if_pos ⟨hid, halt⟩]
      exact GoMap.lookup_store_self out _ _
    · intro hm halt
      rw [categoryStep_eq, if_pos hm, if_neg (fun h => h.2 halt)]
  refine ⟨hstep, ?_⟩
  intro xmlUnmarshal raw env sc pre post hdec hsc hcats hpost hcustom
  refine ⟨_, parsePresentationMapXML_ok xmlUnmarshal raw env sc hdec hsc, ?_⟩
  have hlookup : GoMap.lookup (sc.CustomCategories.foldl customCategoryStep
      (sc.Categories.foldl categoryStep GoMap.empty)) (TrimSpace c.ID) =
      GoMap.lookup (categoryStep (pre.foldl categoryStep GoMap.empty) c) (TrimSpace c.ID) := by
    rw [lookup_foldl_of_no_writer customCategoryStep (fun x => TrimSpace x.StringID)
      (fun x => TrimSpace x.MappedID) customCategoryStep_eq sc.CustomCategories _ _
      (fun x hx hk => absurd hk (hcustom x hx)), hcats, List.foldl_append, List.foldl_cons]
    exact lookup_foldl_of_no_writer categoryStep (fun x => TrimSpace x.ID)
      (fun x => if TrimSpace x.MappedID = "" then TrimSpace x.AltID else TrimSpace x.MappedID)
      categoryStep_eq post _ _ (fun x hx hk => absurd hk (hpost x hx))
  rw [hlookup]
  exact ⟨(hstep _).1, (hstep _).2.1⟩

/-- A Category `id=" genres "` with a blank `mappedId` and `mappedID="search:genre"`: read after
`genres` was stored with another value it stores `genres -> search:genre`, and as the second
Category of a document it gives `genres -> search:genre` in the returned mapping. -/
theorem parsePresentationMapXML_category_value_witness :
    TrimSpace " genres " ≠ "" ∧
    GoMap.lookup (categoryStep [("genres", "old")] ⟨" genres ", " ", "search:genre"⟩) "genres"
      = some "search:genre" ∧
    ∃ m, parsePresentationMapXML (fun _ => .ok altPresentationMap) [] = .ok m ∧
      GoMap.lookup m "genres" = some "search:genre" := by
  have h := parsePresentationMapXML_category_value ⟨" genres ", " ", "search:genre"⟩ (by decide)
  refine ⟨by decide, (h.1 [("genres", "old")]).2.1 (by decide) (by decide), ?_⟩
  obtain ⟨m, hm, -, halt⟩ := h.2 (fun _ => .ok altPresentationMap) [] altPresentationMap
    ⟨[⟨"tracks", "search:track", ""⟩, ⟨" genres ", " ", "search:genre"⟩,
      ⟨"albums", "search:album", "ignored"⟩], [⟨"Blogs", "SBLG"⟩]⟩
    [⟨"tracks", "search:track", ""⟩] [⟨"albums", "search:album", "ignored"⟩] rfl rfl rfl
    (by decide) (by decide)
  exact ⟨m, hm, halt (by decide) (by decide)⟩

/-- C3: on every successfully decoded document `parsePresentationMapXML` returns a mapping and
no error; the mapping is the one returned for the document without the entries whose trimmed
id (stringId) or trimmed mapped value is empty, and each of its keys is the trimmed id of an
entry where both are non-empty. -/
theorem parsePresentationMapXML_skips_empty
    (xmlUnmarshal : List UInt8 → Except String pmapEnvelope) (raw : List UInt8)
    (env : pmapEnvelope) (hdec : xmlUnmarshal raw = .ok env) :
    ∃ m, parsePresentationMapXML xmlUnmarshal raw = .ok m ∧
      parsePresentationMapXML (fun _ => .ok
        { SearchCategories := env.SearchCategories.map (fun sc =>
            { Categories := sc.Categories.filter (fun c =>
                decide (TrimSpace c.ID ≠ "" ∧
                  (TrimSpace c.MappedID ≠ "" ∨ TrimSpace c.AltID ≠ ""))),
              CustomCategories := sc.CustomCategories.filter (fun c =>
                decide (TrimSpace c.StringID ≠ "" ∧ TrimSpace c.MappedID ≠ "")) }) }) raw
        = .ok m ∧
      (∀ k ∈ GoMap.keys m, ∃ sc, env.SearchCategories = some sc ∧
        ((∃ c ∈ sc.Categories, TrimSpace c.ID = k ∧ TrimSpace c.ID ≠ "" ∧
          (TrimSpace c.MappedID ≠ "" ∨ TrimSpace c.AltID ≠ "")) ∨
        (∃ c ∈ sc.CustomCategories, TrimSpace c.StringID = k ∧ TrimSpace c.StringID ≠ "" ∧
          TrimSpace c.MappedID ≠ ""))) := by
  cases hsc : env.SearchCategories with
  | none =>
    refine ⟨GoMap.empty, ?_, ?_, ?_⟩
    · simp only [parsePresentationMapXML, hdec, hsc]
    · simp only [parsePresentationMapXML, Option.map_none']
    · intro k hk
      cases hk
  | some sc =>
    refine ⟨_, parsePresentationMapXML_ok xmlUnmarshal raw env sc hdec hsc, ?_, ?_⟩
    · have hfilter : sc.Categories.filter (fun c =>
            decide (TrimSpace c.ID ≠ "" ∧
              (TrimSpace c.MappedID ≠ "" ∨ TrimSpace c.AltID ≠ ""))) =
          sc.Categories.filter (fun c =>
            decide (TrimSpace c.ID ≠ "" ∧
              (if TrimSpace c.MappedID = "" then TrimSpace c.AltID
                else TrimSpace c.MappedID) ≠ "")) := by
        apply List.filter_congr
        intro c _
        by_cases hm : TrimSpace c.MappedID = "" <;> simp [hm]
      simp only [parsePresentationMapXML, Option.map_some']
      rw [hfilter,
        foldl_filter_usable categoryStep (fun x => TrimSpace x.ID)
          (fun x => if TrimSpace x.MappedID = "" then TrimSpace x.AltID
            else TrimSpace x.MappedID) categoryStep_eq,
        foldl_filter_usable customCategoryStep (fun x => TrimSpace x.StringID)
          (fun x => TrimSpace x.MappedID) customCategoryStep_eq]
    · intro k hk
      refine ⟨sc, rfl, ?_⟩
      rcases mem_keys_foldl customCategoryStep (fun x => TrimSpace x.StringID)
        (fun x => TrimSpace x.MappedID) customCategoryStep_eq sc.CustomCategories _ k hk with
        h | ⟨c, hc, hkc, hid, hm⟩
      · rcases mem_keys_foldl categoryStep (fun x => TrimSpace x.ID)
          (fun x => if TrimSpace x.MappedID = "" then TrimSpace x.AltID
            else TrimSpace x.MappedID)
          categoryStep_eq sc.Categories _ k h with h' | ⟨c, hc, hkc, hid, hm⟩
        · cases h'
        · refine Or.inl ⟨c, hc, hkc, hid, ?_⟩
          by_cases hmap : TrimSpace c.MappedID = ""
          · rw [if_pos hmap] at hm
            exact Or.inr hm
          · exact Or.inl hmap
      · exact Or.inr ⟨c, hc, hkc, hid, hm⟩

/-- A document with a Category without id, a Category without mapped value, a CustomCategory
with a blank stringId and two complete entries returns exactly the two complete entries. -/
theorem parsePresentationMapXML_skips_empty_witness :
    parsePresentationMapXML (fun _ => .ok partialPresentationMap) [] =
      .ok [("tracks", "search:track"), ("Blogs", "SBLG")] ∧
    ∃ m, parsePresentationMapXML (fun _ => .ok partialPresentationMap) [] = .ok m ∧
      ∀ k ∈ GoMap.keys m, k = "tracks" ∨ k = "Blogs" := by
  refine ⟨rfl, ?_⟩
  obtain ⟨m, hm, -, hkeys⟩ :=
    parsePresentationMapXML_skips_empty (fun _ => .ok partialPresentationMap) []
      partialPresentationMap rfl
  refine ⟨m, hm, ?_⟩
  intro k hk
  obtain ⟨sc, hsc, h⟩ := hkeys k hk
  cases hsc
  rcases h with ⟨c, hc, hkc, hid, hm⟩ | ⟨c, hc, hkc, hid, hm⟩
  · subst hkc
    clear hk
    revert c
    decide
  · subst hkc
    clear hk
    revert c
    decide

/-- C4: a document that decodes without a `<SearchCategories>` element gives an empty mapping
with zero entries, returned as a mapping (not nil) together with a nil error. -/
theorem parsePresentationMapXML_no_SearchCategories
    (xmlUnmarshal : List UInt8 → Except String pmapEnvelope) (raw : List UInt8)
    (env : pmapEnvelope) (hdec : xmlUnmarshal raw = .ok env)
    (hnone : env.SearchCategories = none) :
    parsePresentationMapXML xmlUnmarshal raw = .ok GoMap.empty ∧
      GoMap.len (GoMap.empty : GoMap String) = 0 ∧
      ∀ k, GoMap.lookup (GoMap.empty : GoMap String) k = none := by
  refine ⟨?_, rfl, fun _ => rfl⟩
  simp only [parsePresentationMapXML, hdec, hnone]

/-- The document `<PresentationMap/>` decodes to an envelope with a nil `SearchCategories` and
gives the empty mapping. -/
theorem parsePresentationMapXML_no_SearchCategories_witness :
    parsePresentationMapXML (fun _ => .ok { SearchCategories := none }) [] = .ok GoMap.empty :=
  (parsePresentationMapXML_no_SearchCategories (fun _ => .ok { SearchCategories := none }) []
    { SearchCategories := none } rfl rfl).1

/-! ## Device sets -/

theorem mergeMissing_eq (acc : GoMap Device) (kv : String × Device) :
    mergeMissing acc kv = if kv.1 ∈ GoMap.keys acc then acc else GoMap.store acc kv.1 kv.2 := by
  unfold mergeMissing
  by_cases h : kv.1 ∈ GoMap.keys acc
  · rw [if_pos h]
    cases hl : GoMap.lookup acc kv.1 with
    | none => exact absurd h ((GoMap.lookup_eq_none_iff acc kv.1).mp hl)
    | some d => rfl
  · rw [if_neg h, (GoMap.lookup_eq_none_iff acc kv.1).mpr h]

theorem lookup_mergeMissing_of_mem (acc : GoMap Device) (kv : String × Device) (k : String)
    (hk : k ∈ GoMap.keys acc) :
    GoMap.lookup (mergeMissing acc kv) k = GoMap.lookup acc k := by
  rw [mergeMissing_eq]
  split
  · rfl
  · rename_i hkv
    apply GoMap.lookup_store_ne
    intro e
    exact hkv (e ▸ hk)

theorem mem_keys_mergeMissing (acc : GoMap Device) (kv : String × Device) (k : String) :
    k ∈ GoMap.keys (mergeMissing acc kv) ↔ k ∈ GoMap.keys acc ∨ k = kv.1 := by
  rw [mergeMissing_eq]
  split
  · rename_i hkv
    constructor
    · exact Or.inl
    · rintro (h | h)
      · exact h
      · exact h ▸ hkv
  · rw [GoMap.mem_keys_store, or_comm]

theorem lookup_foldl_mergeMissing_of_mem (xs : GoMap Device) (acc : GoMap Device) (k : String)
    (hk : k ∈ GoMap.keys acc) :
    GoMap.lookup (xs.foldl mergeMissing acc) k = GoMap.lookup acc k := by
  induction xs generalizing acc with
  | nil => rfl
  | cons kv rest ih =>
    rw [List.foldl_cons, ih (mergeMissing acc kv)
      ((mem_keys_mergeMissing acc kv k).mpr (Or.inl hk)), lookup_mergeMissing_of_mem acc kv k hk]

theorem lookup_foldl_mergeMissing_of_not_mem (xs : GoMap Device) (acc : GoMap Device)
    (k : String) (hk : k ∉ GoMap.keys acc) :
    GoMap.lookup (xs.foldl mergeMissing acc) k = GoMap.lookup xs k := by
  induction xs generalizing acc with
  | nil => exact (GoMap.lookup_eq_none_iff acc k).mpr hk
  | cons kv rest ih =>
    obtain ⟨k', d⟩ := kv
    rw [List.foldl_cons]
    by_cases hkk : k' = k
    · subst hkk
      have hmem : k' ∈ GoMap.keys (mergeMissing acc (k', d)) :=
        (mem_keys_mergeMissing acc (k', d) k').mpr (Or.inr rfl)
      rw [lookup_foldl_mergeMissing_of_mem rest _ k' hmem, mergeMissing_eq, if_neg hk,
        GoMap.lookup_store_self]
      simp [GoMap.lookup]
    · have hnot : k ∉ GoMap.keys (mergeMissing acc (k', d)) := by
        rw [mem_keys_mergeMissing]
        rintro (h | h)
        · exact hk h
        · exact hkk h.symm
      rw [ih _ hnot]
      simp [GoMap.lookup, hkk]

theorem mem_keys_foldl_mergeMissing (xs : GoMap Device) (acc : GoMap Device) (k : String) :
    k ∈ GoMap.keys (xs.foldl mergeMissing acc) ↔ k ∈ GoMap.keys acc ∨ k ∈ GoMap.keys xs := by
  induction xs generalizing acc with
  | nil => simp [GoMap.keys]
  | cons kv rest ih =>
    rw [List.foldl_cons, ih, mem_keys_mergeMissing]
    simp only [GoMap.keys, List.map_cons, List.mem_cons]
    tauto

theorem WF_foldl_mergeMissing (xs : GoMap Device) (acc : GoMap Device) (h : GoMap.WF acc) :
    GoMap.WF (xs.foldl mergeMissing acc) := by
  induction xs generalizing acc with
  | nil => exact h
  | cons kv rest ih =>
    rw [List.foldl_cons]
    apply ih
    rw [mergeMissing_eq]
    split
    · exact h
    · exact GoMap.WF_store acc _ _ h

/-- C5: for device sets of equal, non-zero size the key set of `preferDeviceSet best candidate`
is the union of the two key sets, every key of `best` keeps the value it has in `best`, and
every key that only `candidate` holds has the value it has in `candidate`; the result is again
a device set (no key twice). -/
theorem preferDeviceSet_equal_size (best candidate : GoMap Device)
    (hbest : GoMap.WF best) (hlen : GoMap.len best = GoMap.len candidate)
    (hpos : 0 < GoMap.len candidate) :
    (∀ k, k ∈ GoMap.keys (preferDeviceSet best candidate) ↔
      k ∈ GoMap.keys best ∨ k ∈ GoMap.keys candidate) ∧
    (∀ k d, GoMap.lookup best k = some d →
      GoMap.lookup (preferDeviceSet best candidate) k = some d) ∧
    (∀ k, k ∉ GoMap.keys best →
      GoMap.lookup (preferDeviceSet best candidate) k = GoMap.lookup candidate k) ∧
    GoMap.WF (preferDeviceSet best candidate) := by
  have hdef : preferDeviceSet best candidate = candidate.foldl mergeMissing best := by
    unfold preferDeviceSet
    rw [if_neg (Nat.pos_iff_ne_zero.mp hpos), if_neg (by omega), if_pos hlen.symm]
  rw [hdef]
  refine ⟨mem_keys_foldl_mergeMissing candidate best, ?_, ?_, ?_⟩
  · intro k d hk
    rw [lookup_foldl_mergeMissing_of_mem candidate best k (GoMap.mem_keys_of_lookup best k d hk)]
    exact hk
  · exact fun k hk => lookup_foldl_mergeMissing_of_not_mem candidate best k hk
  · exact WF_foldl_mergeMissing candidate best hbest

/-- The merge of `TestPreferDeviceSet`: three entries, `10.0.0.2` keeps `Y` and `10.0.0.3` is
added with `Z`. -/
theorem preferDeviceSet_equal_size_witness :
    GoMap.len (preferDeviceSet testBestEqual testCandidateEqual) = 3 ∧
    (GoMap.lookup (preferDeviceSet testBestEqual testCandidateEqual) "10.0.0.2").map Device.Name
      = some "Y" ∧
    (GoMap.lookup (preferDeviceSet testBestEqual testCandidateEqual) "10.0.0.3").map Device.Name
      = some "Z" := by
  have h := preferDeviceSet_equal_size testBestEqual testCandidateEqual (by decide) (by decide)
    (by decide)
  refine ⟨by decide, ?_, ?_⟩
  · rw [h.2.1 "10.0.0.2" { IP := "10.0.0.2", Name := "Y" } (by decide)]
    rfl
  · rw [h.2.2.1 "10.0.0.3" (by decide)]
    decide

/-- C6: a candidate with more entries than `best` is returned as it is: the same keys with the
same values, and no key outside `candidate`. -/
theorem preferDeviceSet_larger_candidate (best candidate : GoMap Device)
    (hlen : GoMap.len candidate > GoMap.len best) :
    preferDeviceSet best candidate = candidate ∧
    (∀ k, GoMap.lookup (preferDeviceSet best candidate) k = GoMap.lookup candidate k) ∧
    (∀ k, k ∉ GoMap.keys candidate → GoMap.lookup (preferDeviceSet best candidate) k = none) := by
  have hdef : preferDeviceSet best candidate = candidate := by
    unfold preferDeviceSet
    rw [if_neg (by omega), if_pos hlen]
  rw [hdef]
  exact ⟨rfl, fun _ => rfl, fun k hk => (GoMap.lookup_eq_none_iff candidate k).mpr hk⟩

/-- The replacement of `TestPreferDeviceSet`: the candidate with two devices replaces the set
with one device, whose key `1.1.1.1` is gone. -/
theorem preferDeviceSet_larger_candidate_witness :
    GoMap.len testCandidateLarger > GoMap.len testBest ∧
    preferDeviceSet testBest testCandidateLarger = testCandidateLarger ∧
    GoMap.lookup (preferDeviceSet testBest testCandidateLarger) "1.1.1.1" = none :=
  ⟨by decide, (preferDeviceSet_larger_candidate testBest testCandidateLarger (by decide)).1,
    (preferDeviceSet_larger_candidate testBest testCandidateLarger (by decide)).2.2 "1.1.1.1"
      (by decide)⟩

/-- C7: with an empty candidate `preferDeviceSet` returns `best` unchanged. -/
theorem preferDeviceSet_empty_candidate (best candidate : GoMap Device)
    (hempty : GoMap.len candidate = 0) : preferDeviceSet best candidate = best := by
  unfold preferDeviceSet
  rw [if_pos hempty]

/-- The first case of `TestPreferDeviceSet`: the empty candidate leaves the one device. -/
theorem preferDeviceSet_empty_candidate_witness :
    GoMap.len (GoMap.empty : GoMap Device) = 0 ∧ preferDeviceSet testBest GoMap.empty = testBest :=
  ⟨rfl, preferDeviceSet_empty_candidate testBest GoMap.empty rfl⟩

/-! ## Discovery fallback -/

/-- C8: when the SSDP stage returns a deadline-exceeded error and topology from its responses
fails, while the network scan returns an IP and topology from that IP succeeds with the device
list `D`, `Discover` returns exactly `D` and no error. -/
theorem Discover_falls_back {R : Type} (s : Strategies R) (opts : DiscoverOptions)
    (ip : String) (D : List Device)
    (_hssdp : s.ssdpDiscoverFunc.2 = some DiscoverError.deadlineExceeded)
    (htop : ∃ e, s.discoverViaTopologyFunc s.ssdpDiscoverFunc.1 opts.IncludeInvisible = .error e)
    (hscan : s.scanAnySpeakerIPFunc = .ok ip)
    (htopIP : s.discoverViaTopologyFromIPFunc ip opts.IncludeInvisible = .ok D) :
    Discover s opts = .ok D := by
  obtain ⟨e, he⟩ := htop
  unfold Discover
  by_cases hres : s.ssdpDiscoverFunc.1.isEmpty = true
  · simp only [hres, if_true, hscan, htopIP]
  · simp only [hres, he, hscan, htopIP]
    rfl

/-- The scenario of `TestDiscoverFallsBackWhenSSDPDeadlineExceeded`: the scan returns
`192.168.1.10` and `Discover` returns the one device named `Office`. -/
theorem Discover_falls_back_witness :
    testStrategies.ssdpDiscoverFunc.2 = some DiscoverError.deadlineExceeded ∧
    testStrategies.scanAnySpeakerIPFunc = .ok "192.168.1.10" ∧
    Discover testStrategies { Timeout := 3000000000 } =
      .ok [{ IP := "192.168.1.10", Name := "Office", UDN := "RINCON_x" }] :=
  ⟨rfl, rfl,
    Discover_falls_back testStrategies { Timeout := 3000000000 } "192.168.1.10"
      [{ IP := "192.168.1.10", Name := "Office", UDN := "RINCON_x" }] rfl
      ⟨DiscoverError.other "no ssdp candidates", rfl⟩ rfl rfl⟩

/-! ## Music service descriptors -/

/-- C9: the services parsed from a list of `<Service>` elements have, element by element, the
`ServiceType` that is the decimal string of `Id*256 + 7`, whatever else the element holds; and
the list parses whenever every `Auth` value is one of the three recognized ones. -/
theorem parseServiceDescriptorList_ServiceType (elems : List serviceElement) :
    (∀ svcs, parseServiceDescriptorList elems = .ok svcs →
      svcs.map MusicService.ServiceType = elems.map (fun e => toString (e.Id * 256 + 7))) ∧
    ((∀ e ∈ elems, e.PolicyAuth = "Anonymous" ∨ e.PolicyAuth = "DeviceLink" ∨
        e.PolicyAuth = "AppLink") →
      ∃ svcs, parseServiceDescriptorList elems = .ok svcs) := by
  induction elems with
  | nil =>
    refine ⟨?_, fun _ => ⟨[], rfl⟩⟩
    intro svcs h
    cases h
    rfl
  | cons e rest ih =>
    obtain ⟨ihType, ihOk⟩ := ih
    constructor
    · intro svcs h
      unfold parseServiceDescriptorList at h
      cases hauth : parseMusicServiceAuth e.PolicyAuth with
      | error err => simp [serviceFromElement, hauth] at h
      | ok auth =>
        cases hrest : parseServiceDescriptorList rest with
        | error err => simp [serviceFromElement, hauth, hrest] at h
        | ok tail =>
          simp only [serviceFromElement, hauth, hrest, Except.ok.injEq] at h
          subst h
          simp only [List.map_cons, ihType tail hrest]
    · intro hall
      obtain ⟨tail, htail⟩ := ihOk (fun x hx => hall x (List.mem_cons_of_mem e hx))
      have hauth : ∃ auth, parseMusicServiceAuth e.PolicyAuth = .ok auth := by
        unfold parseMusicServiceAuth
        rcases hall e (List.mem_cons_self e rest) with h | h | h
        · exact ⟨_, by rw [h]; rfl⟩
        · exact ⟨_, by rw [h]; rfl⟩
        · exact ⟨_, by rw [h]; rfl⟩
      obtain ⟨auth, hauth⟩ := hauth
      have hsvc : ∃ svc, serviceFromElement e = .ok svc := by
        unfold serviceFromElement
        rw [hauth]
        exact ⟨_, rfl⟩
      obtain ⟨svc, hsvc⟩ := hsvc
      exact ⟨svc :: tail, by simp only [parseServiceDescriptorList, hsvc, htail]⟩

/-- The document of `TestParseServiceDescriptorListXML`: the services with `Id` 9 and 163 get
the service types `2311` and `41735`. -/
theorem parseServiceDescriptorList_ServiceType_witness :
    ∃ svcs, parseServiceDescriptorList testServices = .ok svcs ∧
      svcs.map MusicService.ServiceType = ["2311", "41735", "255751"] := by
  obtain ⟨svcs, h⟩ := (parseServiceDescriptorList_ServiceType testServices).2 (by decide)
  exact ⟨svcs, h, (parseServiceDescriptorList_ServiceType testServices).1 svcs h⟩

/-! ## Favorites -/

/-- C10: `favoriteURI` returns `item.URI` when it is non-empty, whatever `ResMD` holds;
otherwise, when `item.ResMD` is non-empty, the `URI` of the first item that parsing `ResMD`
gives; and the empty string when both are empty. -/
theorem favoriteURI_resolution (ParseDIDLItems : String → Except String (List DIDLItem))
    (item : DIDLItem) :
    (item.URI ≠ "" → favoriteURI ParseDIDLItems item = item.URI) ∧
    (item.URI = "" → item.ResMD ≠ "" → ∀ first rest,
      ParseDIDLItems item.ResMD = .ok (first :: rest) →
      favoriteURI ParseDIDLItems item = first.URI) ∧
    (item.URI = "" → item.ResMD = "" → favoriteURI ParseDIDLItems item = "") := by
  refine ⟨?_, ?_, ?_⟩
  · intro h
    simp only [favoriteURI, ne_eq, h, not_false_eq_true, if_true]
  · intro h hmd first rest hparse
    simp only [favoriteURI, ne_eq, h, not_true_eq_false, if_false, hmd, not_false_eq_true,
      if_true, hparse]
  · intro h hmd
    simp only [favoriteURI, ne_eq, h, hmd, not_true_eq_false, if_false]

/-- The three cases of `TestFavoriteURI`: the direct URI `x://1`, the stream URI of the item
nested in `ResMD`, and the empty string for the empty item. -/
theorem favoriteURI_resolution_witness :
    favoriteURI testParseDIDLItems { URI := "x://1", ResMD := "<DIDL-Lite/>" } = "x://1" ∧
    favoriteURI testParseDIDLItems { ResMD := "<DIDL-Lite>...</DIDL-Lite>" }
      = "http://example.com/stream" ∧
    favoriteURI testParseDIDLItems {} = "" :=
  ⟨(favoriteURI_resolution testParseDIDLItems { URI := "x://1", ResMD := "<DIDL-Lite/>" }).1
      (by decide),
    (favoriteURI_resolution testParseDIDLItems { ResMD := "<DIDL-Lite>...</DIDL-Lite>" }).2.1
      rfl (by decide) _ _ rfl,
    (favoriteURI_resolution testParseDIDLItems {}).2.2 rfl rfl⟩

/-! ## SMAPI token store -/

/-- C11: after a successful `Save(serviceId, householdId, p)`, `Load(serviceId, householdId)`
that meets no I/O failure returns found = true, a nil error and a pair with the `AuthToken` and
the `PrivateKey` of `p` (the pair `p` itself); the backing file then has the permissions `0600`;
and `Save` succeeds whenever it meets no I/O failure. -/
theorem FileSMAPITokenStore_Save_Load (ioFailure : Option String) (s s' : FileSMAPITokenStore)
    (serviceId householdId : String) (p : SMAPITokenPair)
    (hsave : FileSMAPITokenStore.Save ioFailure s serviceId householdId p = .ok s') :
    (FileSMAPITokenStore.Load none s' serviceId householdId).2.1 = true ∧
    (FileSMAPITokenStore.Load none s' serviceId householdId).2.2 = none ∧
    (FileSMAPITokenStore.Load none s' serviceId householdId).1.AuthToken = p.AuthToken ∧
    (FileSMAPITokenStore.Load none s' serviceId householdId).1.PrivateKey = p.PrivateKey ∧
    (FileSMAPITokenStore.Load none s' serviceId householdId).1 = p ∧
    s'.File.map tokenFile.Perm = some 0o600 ∧
    ∃ s'', FileSMAPITokenStore.Save none s serviceId householdId p = .ok s'' := by
  cases ioFailure with
  | some err => cases hsave
  | none =>
    simp only [FileSMAPITokenStore.Save, Except.ok.injEq] at hsave
    subst hsave
    simp only [FileSMAPITokenStore.Load, FileSMAPITokenStore.Save, GoMap.lookup_store_self,
      Option.map_some', Except.ok.injEq, exists_eq', and_self]

/-- The round trip of `TestFileSMAPITokenStore_SaveLoad`: the pair `token`/`key` saved for
service `9` and household `Sonos_ABC` is loaded back. -/
theorem FileSMAPITokenStore_Save_Load_witness :
    ∃ s', FileSMAPITokenStore.Save none (NewFileSMAPITokenStore "tokens.json") "9" "Sonos_ABC"
        { AuthToken := "token", PrivateKey := "key", UpdatedAt := 1700000000 } = .ok s' ∧
      FileSMAPITokenStore.Load none s' "9" "Sonos_ABC" =
        ({ AuthToken := "token", PrivateKey := "key", UpdatedAt := 1700000000 }, true, none) :=
  ⟨_, rfl, Prod.ext
    (FileSMAPITokenStore_Save_Load none (NewFileSMAPITokenStore "tokens.json") _ "9" "Sonos_ABC"
      { AuthToken := "token", PrivateKey := "key", UpdatedAt := 1700000000 } rfl).2.2.2.2.1
    rfl⟩

/-! ## Spotify search types -/

namespace Spotify

/-- C12: `ParseSearchType s` succeeds if and only if `s`, trimmed and lower-cased, is one of
`track`, `album`, `playlist`, `show`, `episode`; on success it returns that trimmed lower-case
value, on failure the empty `SearchType` together with a non-nil error. -/
theorem ParseSearchType_spec (unicodeToLower : Char → Char) (s : String) :
    ((ParseSearchType unicodeToLower s).2 = none ↔
      ToLower unicodeToLower (TrimSpace s) ∈ ["track", "album", "playlist", "show", "episode"]) ∧
    ((ParseSearchType unicodeToLower s).2 = none →
      (ParseSearchType unicodeToLower s).1 = ToLower unicodeToLower (TrimSpace s)) ∧
    ((ParseSearchType unicodeToLower s).2 ≠ none →
      (ParseSearchType unicodeToLower s).1 = "" ∧
      (ParseSearchType unicodeToLower s).2 = some (SpotifyError.invalidType s)) := by
  by_cases h : ToLower unicodeToLower (TrimSpace s) ∈
      ["track", "album", "playlist", "show", "episode"]
  · have h' := h
    simp only [List.mem_cons, List.mem_singleton, List.not_mem_nil, or_false] at h'
    have hdef : ParseSearchType unicodeToLower s =
        (ToLower unicodeToLower (TrimSpace s), none) := by
      unfold ParseSearchType
      exact if_pos h'
    rw [hdef]
    exact ⟨⟨fun _ => h, fun _ => rfl⟩, fun _ => rfl, fun hne => absurd rfl hne⟩
  · have h' := h
    simp only [List.mem_cons, List.mem_singleton, List.not_mem_nil, or_false] at h'
    have hdef : ParseSearchType unicodeToLower s =
        ("", some (SpotifyError.invalidType s)) := by
      unfold ParseSearchType
      exact if_neg h'
    rw [hdef]
    refine ⟨⟨fun hn => ?_, fun hm => absurd hm h⟩, fun hn => ?_, fun _ => ⟨rfl, rfl⟩⟩
    · cases hn
    · cases hn

/-- The flag value `" Track\n"` parses to `track`, and `"tracks"` is refused with the empty
type and an error. -/
theorem ParseSearchType_spec_witness :
    ParseSearchType id " Track\n" = ("track", none) ∧
    ParseSearchType id "tracks" = ("", some (SpotifyError.invalidType "tracks")) := by
  have h₁ := ParseSearchType_spec id " Track\n"
  have h₂ := ParseSearchType_spec id "tracks"
  refine ⟨Prod.ext (h₁.2.1 (h₁.1.mpr (by decide))) (h₁.1.mpr (by decide)), ?_⟩
  have hne : (ParseSearchType id "tracks").2 ≠ none := fun hn => by
    have := h₂.1.mp hn
    revert this
    decide
  exact Prod.ext (h₂.2.2 hne).1 (h₂.2.2 hne).2

end Spotify

/-! ## The Spotify client -/

namespace Spotify

theorem fetchClientCredentialsToken_cases (w : World) (c : Client) :
    ((fetchClientCredentialsToken w c).2 = [] ∨
      ∃ u, (fetchClientCredentialsToken w c).2 = [tokenRequest w c u]) ∧
    ∀ token tokenType expiresIn,
      (fetchClientCredentialsToken w c).1 = .ok (token, tokenType, expiresIn) → token ≠ "" := by
  unfold fetchClientCredentialsToken
  split
  · simp
  · split
    · simp
    · dsimp only
      split
      · simp
      · split
        · simp
        · split
          · simp
          · split
            · simp
            · split
              · simp
              · rename_i htok
                refine ⟨Or.inr ⟨_, rfl⟩, ?_⟩
                intro token tokenType expiresIn h
                simp only [Except.ok.injEq, Prod.mk.injEq] at h
                exact h.1 ▸ htok

theorem timeSub_gt (t u : Int) (h : t - u > 30 * Second) : timeSub t u > 30 * Second := by
  unfold timeSub
  unfold Second at *
  have hmin : (30 : Int) * 1000000000 < min (2 ^ 63 - 1) (t - u) := lt_min (by norm_num) h
  exact lt_max_of_lt_right hmin

theorem ensureToken_cached (w : World) (c : Client) (htoken : c.token ≠ "")
    (hexpiry : c.expiresAt - w.untilNow > 30 * Second) :
    ensureToken w c = { err := none, client := c, sent := [] } := by
  unfold ensureToken
  rw [if_pos ⟨htoken, timeSub_gt c.expiresAt w.untilNow hexpiry⟩]

theorem ensureToken_sent (w : World) (c : Client) :
    ∀ req ∈ (ensureToken w c).sent, req.Method = "POST" := by
  intro req hreq
  have hfetch := (fetchClientCredentialsToken_cases w c).1
  unfold ensureToken at hreq
  split at hreq
  · cases hreq
  · split at hreq
    · rename_i hf
      rw [hf] at hfetch
      rcases hfetch with h | ⟨u, h⟩
      · dsimp only at h hreq
        rw [h] at hreq
        cases hreq
      · dsimp only at h hreq
        rw [h, List.mem_singleton] at hreq
        rw [hreq]
        rfl
    · rename_i hf
      rw [hf] at hfetch
      rcases hfetch with h | ⟨u, h⟩
      · dsimp only at h hreq
        rw [h] at hreq
        cases hreq
      · dsimp only at h hreq
        rw [h, List.mem_singleton] at hreq
        rw [hreq]
        rfl

theorem ensureToken_token_ne (w : World) (c : Client) (hok : (ensureToken w c).err = none) :
    (ensureToken w c).client.token ≠ "" := by
  have hfetch := (fetchClientCredentialsToken_cases w c).2
  unfold ensureToken at hok ⊢
  split
  · rename_i hcached
    exact hcached.1
  · rw [if_neg (by assumption)] at hok
    split
    · rename_i hf
      rw [hf] at hok
      cases hok
    · rename_i token tokenType expiresIn sent hf
      exact hfetch token tokenType expiresIn (by rw [hf])

theorem Search_blank_query (w : World) (c : Client) (query : String) (typ : SearchType)
    (limit : Int) (market : String) (hq : TrimSpace query = "") :
    (Search w c query typ limit market).client = c ∧
    (Search w c query typ limit market).sent = [] ∧
    (Search w c query typ limit market).result = .error .queryRequired := by
  unfold Search
  simp only [hq, if_true, and_self]

theorem Search_cases (w : World) (c : Client) (query : String) (typ : SearchType)
    (limit : Int) (market : String) (hq : TrimSpace query ≠ "") :
    (Search w c query typ limit market).client = (ensureToken w c).client ∧
    (((Search w c query typ limit market).sent = (ensureToken w c).sent ∧
        ∃ err, (Search w c query typ limit market).result = .error err) ∨
      ((ensureToken w c).err = none ∧
        ∃ u, (Search w c query typ limit market).sent = (ensureToken w c).sent ++
          [searchRequest (ensureToken w c).client (searchQuery u (TrimSpace query) typ
            (if (if limit ≤ 0 then 10 else limit) > 50 then 50
              else (if limit ≤ 0 then 10 else limit)) (TrimSpace market))] ∧
          ((∃ err, (Search w c query typ limit market).result = .error err) ∨
            ∃ b, (Search w c query typ limit market).result = searchResults w typ b))) := by
  unfold Search
  simp only [hq, if_false]
  split
  · exact ⟨rfl, Or.inl ⟨rfl, _, rfl⟩⟩
  · rename_i htok
    split
    · exact ⟨rfl, Or.inl ⟨rfl, _, rfl⟩⟩
    · split
      · exact ⟨rfl, Or.inl ⟨rfl, _, rfl⟩⟩
      · split
        · exact ⟨rfl, Or.inr ⟨htok, _, rfl, Or.inl ⟨_, rfl⟩⟩⟩
        · split
          · exact ⟨rfl, Or.inr ⟨htok, _, rfl, Or.inl ⟨_, rfl⟩⟩⟩
          · split
            · exact ⟨rfl, Or.inr ⟨htok, _, rfl, Or.inl ⟨_, rfl⟩⟩⟩
            · exact ⟨rfl, Or.inr ⟨htok, _, rfl, Or.inr ⟨_, rfl⟩⟩⟩

theorem Get_searchQuery_limit (u : Values) (query : String) (typ : SearchType) (limit : Int)
    (market : String) :
    Values.Get (searchQuery u query typ limit market) "limit" = toString limit := by
  have hlookup : GoMap.lookup (searchQuery u query typ limit market) "limit" =
      some [toString limit] := by
    unfold searchQuery
    dsimp only
    by_cases hm : market = ""
    · rw [if_neg (not_not.mpr hm)]
      exact GoMap.lookup_store_self _ "limit" [toString limit]
    · rw [if_pos hm]
      unfold Values.Set
      rw [GoMap.lookup_store_ne _ "market" "limit" _ (by decide)]
      exact GoMap.lookup_store_self _ "limit" [toString limit]
  unfold Values.Get
  rw [hlookup]

theorem Search_sends (w : World) (c : Client) (query : String) (typ : SearchType)
    (limit : Int) (market : String) (u : Values) (hq : TrimSpace query ≠ "")
    (htoken : (ensureToken w c).err = none)
    (hparse : w.urlParse ((ensureToken w c).client.APIBaseURL ++ "/v1/search") = .ok u)
    (hnew : w.newRequest "GET" ((ensureToken w c).client.APIBaseURL ++ "/v1/search")
      (searchQuery u (TrimSpace query) typ
        (if limit ≤ 0 then 10 else if limit > 50 then 50 else limit) (TrimSpace market)) = none) :
    (Search w c query typ limit market).sent = (ensureToken w c).sent ++
      [searchRequest (ensureToken w c).client (searchQuery u (TrimSpace query) typ
        (if limit ≤ 0 then 10 else if limit > 50 then 50 else limit) (TrimSpace market))] := by
  have hclamp : (if (if limit ≤ 0 then (10 : Int) else limit) > 50 then (50 : Int)
      else (if limit ≤ 0 then 10 else limit)) =
      (if limit ≤ 0 then (10 : Int) else if limit > 50 then 50 else limit) := by
    split_ifs <;> omega
  unfold Search
  simp only [hq, if_false, htoken, hclamp, hparse, hnew]
  split
  · rfl
  · split
    · rfl
    · split
      · rfl
      · rfl

theorem tokenCalls_ensureToken_le (w : World) (c : Client) :
    tokenCalls (ensureToken w c).sent ≤ 1 := by
  have hfetch := (fetchClientCredentialsToken_cases w c).1
  unfold ensureToken
  split
  · exact Nat.zero_le 1
  · have hle : ∀ sent : List Request,
        (sent = [] ∨ ∃ u, sent = [tokenRequest w c u]) → tokenCalls sent ≤ 1 := by
      intro sent hsent
      have hlen : sent.length ≤ 1 := by
        rcases hsent with h | ⟨u, h⟩ <;> rw [h] <;> simp
      exact Nat.le_trans (List.length_filter_le _ sent) hlen
    split
    · rename_i hf
      rw [hf] at hfetch
      exact hle _ hfetch
    · rename_i hf
      rw [hf] at hfetch
      exact hle _ hfetch

theorem tokenCalls_append_searchRequest (sent : List Request) (c : Client) (q : Values) :
    tokenCalls (sent ++ [searchRequest c q]) = tokenCalls sent := by
  unfold tokenCalls
  rw [List.filter_append, List.length_append]
  have : List.filter (fun r => decide (r.Method = "POST")) [searchRequest c q] = [] := by
    have hget : ¬ (fun r : Request => decide (r.Method = "POST")) (searchRequest c q) = true := by
      show ¬ decide ("GET" = "POST") = true
      decide
    exact List.filter_cons_of_neg hget
  rw [this]
  rfl

/-- C13: the `limit` query parameter of the search request that `Search` sends is the decimal
string of 10 when `limit ≤ 0`, of 50 when `limit > 50` and of `limit` otherwise, a value in
1..50; a `Search` that returns results has sent such a request; and whenever the query is not
blank, the token is there and the request can be built, `Search` sends, after the requests of
`ensureToken`, exactly one `GET` request to the search endpoint, with that `limit`. -/
theorem Search_limit_parameter (w : World) (c : Client) (query : String) (typ : SearchType)
    (limit : Int) (market : String) :
    (∀ req ∈ (Search w c query typ limit market).sent, req.Method = "GET" →
      Values.Get req.Query "limit" =
        toString (if limit ≤ 0 then (10 : Int) else if limit > 50 then 50 else limit)) ∧
    (∀ results, (Search w c query typ limit market).result = .ok results →
      ∃ req ∈ (Search w c query typ limit market).sent, req.Method = "GET") ∧
    1 ≤ (if limit ≤ 0 then (10 : Int) else if limit > 50 then 50 else limit) ∧
    (if limit ≤ 0 then (10 : Int) else if limit > 50 then 50 else limit) ≤ 50 ∧
    (TrimSpace query ≠ "" → (ensureToken w c).err = none →
      ∀ u, w.urlParse ((ensureToken w c).client.APIBaseURL ++ "/v1/search") = .ok u →
      w.newRequest "GET" ((ensureToken w c).client.APIBaseURL ++ "/v1/search")
        (searchQuery u (TrimSpace query) typ
          (if limit ≤ 0 then 10 else if limit > 50 then 50 else limit) (TrimSpace market))
        = none →
      ∃ req, (Search w c query typ limit market).sent = (ensureToken w c).sent ++ [req] ∧
        req.Method = "GET" ∧
        req.URL = (ensureToken w c).client.APIBaseURL ++ "/v1/search" ∧
        Values.Get req.Query "limit" =
          toString (if limit ≤ 0 then (10 : Int) else if limit > 50 then 50 else limit)) := by
  have hclamp : (if (if limit ≤ 0 then (10 : Int) else limit) > 50 then (50 : Int)
      else (if limit ≤ 0 then 10 else limit)) =
      (if limit ≤ 0 then (10 : Int) else if limit > 50 then 50 else limit) := by
    split_ifs <;> omega
  refine ⟨?_, ?_, by split_ifs <;> omega, by split_ifs <;> omega, ?_⟩
  · intro req hreq hget
    by_cases hq : TrimSpace query = ""
    · rw [(Search_blank_query w c query typ limit market hq).2.1] at hreq
      cases hreq
    · have hpost : ∀ r ∈ (ensureToken w c).sent, r = req → False := by
        intro r hr hrr
        have := ensureToken_sent w c r hr
        rw [hrr, hget] at this
        revert this
        decide
      rcases (Search_cases w c query typ limit market hq).2 with ⟨hsent, -⟩ | ⟨-, u, hsent, -⟩
      · rw [hsent] at hreq
        exact (hpost req hreq rfl).elim
      · rw [hsent, List.mem_append, List.mem_singleton] at hreq
        rcases hreq with hreq | hreq
        · exact (hpost req hreq rfl).elim
        · rw [hreq, ← hclamp]
          exact Get_searchQuery_limit u _ typ _ _
  · intro results hres
    by_cases hq : TrimSpace query = ""
    · rw [(Search_blank_query w c query typ limit market hq).2.2] at hres
      cases hres
    · rcases (Search_cases w c query typ limit market hq).2 with ⟨-, err, herr⟩ | ⟨-, u, hsent, -⟩
      · rw [herr] at hres
        cases hres
      · refine ⟨searchRequest (ensureToken w c).client (searchQuery u (TrimSpace query) typ
            (if (if limit ≤ 0 then 10 else limit) > 50 then 50
              else (if limit ≤ 0 then 10 else limit)) (TrimSpace market)), ?_, rfl⟩
        rw [hsent]
        exact List.mem_append_right _ (List.mem_singleton.mpr rfl)
  · intro hq htoken u hparse hnew
    exact ⟨_, Search_sends w c query typ limit market u hq htoken hparse hnew, rfl, rfl,
      Get_searchQuery_limit u _ typ _ _⟩

/-- The search of `TestSearch_Tracks_ClientCredentials` with the limit 2 sends the token
request and then the search request with the limit `2`; with the limits 0, -3 and 1000 the
search request is sent with `10`, `10` and `50`. -/
theorem Search_limit_parameter_witness :
    (Search (testWorld 0) (New "id" "secret") "hello world" TypeTrack 2 "").sent.map
      (fun r => (r.Method, Values.Get r.Query "limit")) = [("POST", ""), ("GET", "2")] ∧
    (∃ req, (Search (testWorld 0) (New "id" "secret") "hello world" TypeTrack 0 "").sent =
        (ensureToken (testWorld 0) (New "id" "secret")).sent ++ [req] ∧
      req.Method = "GET" ∧ Values.Get req.Query "limit" = "10") ∧
    (∃ req, (Search (testWorld 0) (New "id" "secret") "hello world" TypeTrack (-3) "").sent =
        (ensureToken (testWorld 0) (New "id" "secret")).sent ++ [req] ∧
      req.Method = "GET" ∧ Values.Get req.Query "limit" = "10") ∧
    (∃ req, (Search (testWorld 0) (New "id" "secret") "hello world" TypeTrack 1000 "").sent =
        (ensureToken (testWorld 0) (New "id" "secret")).sent ++ [req] ∧
      req.Method = "GET" ∧ Values.Get req.Query "limit" = "50") ∧
    (∀ req ∈ (Search (testWorld 0) (New "id" "secret") "hello world" TypeTrack 2 "").sent,
      req.Method = "GET" → Values.Get req.Query "limit" = "2") := by
  refine ⟨by decide, ?_, ?_, ?_,
    (Search_limit_parameter (testWorld 0) (New "id" "secret") "hello world" TypeTrack 2 "").1⟩
  · obtain ⟨req, hsent, hget, -, hlimit⟩ :=
      (Search_limit_parameter (testWorld 0) (New "id" "secret") "hello world" TypeTrack 0
        "").2.2.2.2 (by decide) (by decide) GoMap.empty rfl rfl
    exact ⟨req, hsent, hget, hlimit⟩
  · obtain ⟨req, hsent, hget, -, hlimit⟩ :=
      (Search_limit_parameter (testWorld 0) (New "id" "secret") "hello world" TypeTrack (-3)
        "").2.2.2.2 (by decide) (by decide) GoMap.empty rfl rfl
    exact ⟨req, hsent, hget, hlimit⟩
  · obtain ⟨req, hsent, hget, -, hlimit⟩ :=
      (Search_limit_parameter (testWorld 0) (New "id" "secret") "hello world" TypeTrack 1000
        "").2.2.2.2 (by decide) (by decide) GoMap.empty rfl rfl
    exact ⟨req, hsent, hget, hlimit⟩

theorem fetchClientCredentialsToken_ok_sent (w : World) (c : Client)
    (token tokenType : String) (expiresIn : Int)
    (hok : (fetchClientCredentialsToken w c).1 = .ok (token, tokenType, expiresIn)) :
    ∃ u, (fetchClientCredentialsToken w c).2 = [tokenRequest w c u] := by
  unfold fetchClientCredentialsToken at hok ⊢
  split
  · rename_i h
    rw [h] at hok
    cases hok
  · rename_i u h
    rw [h] at hok
    dsimp only at hok ⊢
    split
    · rename_i h'
      rw [h'] at hok
      cases hok
    · rename_i h'
      rw [h'] at hok
      dsimp only at hok ⊢
      refine ⟨u, ?_⟩
      split
      · rfl
      · split
        · rfl
        · split
          · rfl
          · split
            · rfl
            · split
              · rfl
              · rfl

theorem tokenCalls_ensureToken_fresh (w : World) (c : Client) (hfresh : c.token = "")
    (hok : (ensureToken w c).err = none) : tokenCalls (ensureToken w c).sent = 1 := by
  unfold ensureToken at hok ⊢
  rw [if_neg (fun h => h.1 hfresh)] at hok ⊢
  split
  · rename_i hf
    rw [hf] at hok
    cases hok
  · rename_i token tokenType expiresIn sent hf
    obtain ⟨u, hu⟩ := fetchClientCredentialsToken_ok_sent w c token tokenType expiresIn
      (by rw [hf])
    rw [hf] at hu
    dsimp only at hu ⊢
    rw [hu]
    rfl

theorem Search_cached_sends (w : World) (c : Client) (query : String) (typ : SearchType)
    (limit : Int) (market : String) (u : Values) (htoken : c.token ≠ "")
    (hexpiry : c.expiresAt - w.untilNow > 30 * Second) (hq : TrimSpace query ≠ "")
    (hparse : w.urlParse (c.APIBaseURL ++ "/v1/search") = .ok u)
    (hnew : w.newRequest "GET" (c.APIBaseURL ++ "/v1/search")
      (searchQuery u (TrimSpace query) typ
        (if limit ≤ 0 then 10 else if limit > 50 then 50 else limit) (TrimSpace market)) = none) :
    (Search w c query typ limit market).sent =
      [searchRequest c (searchQuery u (TrimSpace query) typ
        (if limit ≤ 0 then 10 else if limit > 50 then 50 else limit) (TrimSpace market))] := by
  have hcached := ensureToken_cached w c htoken hexpiry
  have hsent := Search_sends w c query typ limit market u hq (by rw [hcached])
    (by rw [hcached]; exact hparse) (by rw [hcached]; exact hnew)
  rw [hcached] at hsent
  exact hsent

theorem Search_second_cached (w₁ w₂ : World) (c : Client) (query₁ query₂ : String)
    (typ₁ typ₂ : SearchType) (limit₁ limit₂ : Int) (market₁ market₂ : String)
    (hquery : TrimSpace query₁ ≠ "")
    (htoken : (ensureToken w₁ c).err = none)
    (hexpiry : (Search w₁ c query₁ typ₁ limit₁ market₁).client.expiresAt - w₂.untilNow
      > 30 * Second) :
    tokenCalls (Search w₂ (Search w₁ c query₁ typ₁ limit₁ market₁).client
      query₂ typ₂ limit₂ market₂).sent = 0 ∧
    tokenCalls ((Search w₁ c query₁ typ₁ limit₁ market₁).sent ++
      (Search w₂ (Search w₁ c query₁ typ₁ limit₁ market₁).client
        query₂ typ₂ limit₂ market₂).sent) =
      tokenCalls (Search w₁ c query₁ typ₁ limit₁ market₁).sent ∧
    tokenCalls (Search w₁ c query₁ typ₁ limit₁ market₁).sent ≤ 1 ∧
    (∀ req ∈ (Search w₂ (Search w₁ c query₁ typ₁ limit₁ market₁).client
        query₂ typ₂ limit₂ market₂).sent,
      GoMap.lookup req.Header "Authorization" =
        some ((Search w₁ c query₁ typ₁ limit₁ market₁).client.tokenType ++ " " ++
          (Search w₁ c query₁ typ₁ limit₁ market₁).client.token)) ∧
    (Search w₂ (Search w₁ c query₁ typ₁ limit₁ market₁).client
      query₂ typ₂ limit₂ market₂).client = (Search w₁ c query₁ typ₁ limit₁ market₁).client := by
  have hclient := (Search_cases w₁ c query₁ typ₁ limit₁ market₁ hquery).1
  have hne : (Search w₁ c query₁ typ₁ limit₁ market₁).client.token ≠ "" := by
    rw [hclient]
    exact ensureToken_token_ne w₁ c htoken
  have hfirst : tokenCalls (Search w₁ c query₁ typ₁ limit₁ market₁).sent ≤ 1 := by
    rcases (Search_cases w₁ c query₁ typ₁ limit₁ market₁ hquery).2 with
      ⟨hsent, -⟩ | ⟨-, u, hsent, -⟩
    · rw [hsent]
      exact tokenCalls_ensureToken_le w₁ c
    · rw [hsent, tokenCalls_append_searchRequest]
      exact tokenCalls_ensureToken_le w₁ c
  generalize (Search w₁ c query₁ typ₁ limit₁ market₁).client = c₁ at hexpiry hne ⊢
  generalize (Search w₁ c query₁ typ₁ limit₁ market₁).sent = sent₁ at hfirst ⊢
  have hcached := ensureToken_cached w₂ c₁ hne hexpiry
  have hsecond : (Search w₂ c₁ query₂ typ₂ limit₂ market₂).client = c₁ ∧
      ((Search w₂ c₁ query₂ typ₂ limit₂ market₂).sent = [] ∨
        ∃ q, (Search w₂ c₁ query₂ typ₂ limit₂ market₂).sent = [searchRequest c₁ q]) := by
    by_cases hq : TrimSpace query₂ = ""
    · exact ⟨(Search_blank_query w₂ c₁ query₂ typ₂ limit₂ market₂ hq).1,
        Or.inl (Search_blank_query w₂ c₁ query₂ typ₂ limit₂ market₂ hq).2.1⟩
    · have hcases := Search_cases w₂ c₁ query₂ typ₂ limit₂ market₂ hq
      rw [hcached] at hcases
      refine ⟨hcases.1, ?_⟩
      rcases hcases.2 with ⟨hsent, -⟩ | ⟨-, u, hsent, -⟩
      · exact Or.inl hsent
      · exact Or.inr ⟨_, hsent⟩
  obtain ⟨hc, hsent⟩ := hsecond
  rcases hsent with hsent | ⟨q, hsent⟩
  · rw [hsent, List.append_nil]
    refine ⟨rfl, rfl, hfirst, ?_, hc⟩
    intro req hreq
    cases hreq
  · rw [hsent]
    refine ⟨tokenCalls_append_searchRequest [] c₁ q, tokenCalls_append_searchRequest sent₁ c₁ q,
      hfirst, ?_, hc⟩
    intro req hreq
    rw [List.mem_singleton] at hreq
    rw [hreq]
    exact GoMap.lookup_store_self GoMap.empty "Authorization" _

/-- C14: when the first `Search` obtained its token (`ensureToken` returned nil) and that token
expires more than 30 seconds after the clock reading of the second `Search` on the client the
first one left, the second `Search` sends no token request, so the number of token requests of
both stays that of the first (at most one); every request it sends carries the cached token in
its `Authorization` header, and the client is left as it was; and whenever its query is not
blank and the request can be built, the second `Search` sends exactly one request, the `GET`
to the search endpoint with the cached token in its `Authorization` header.  When the client
held no token before the first `Search`, the number of token requests is 1 after the first
`Search` and still 1 after the second. -/
theorem Search_reuses_cached_token (w₁ w₂ : World) (c : Client) (query₁ query₂ : String)
    (typ₁ typ₂ : SearchType) (limit₁ limit₂ : Int) (market₁ market₂ : String)
    (hquery : TrimSpace query₁ ≠ "")
    (htoken : (ensureToken w₁ c).err = none)
    (hexpiry : (Search w₁ c query₁ typ₁ limit₁ market₁).client.expiresAt - w₂.untilNow
      > 30 * Second) :
    tokenCalls (Search w₂ (Search w₁ c query₁ typ₁ limit₁ market₁).client
      query₂ typ₂ limit₂ market₂).sent = 0 ∧
    tokenCalls ((Search w₁ c query₁ typ₁ limit₁ market₁).sent ++
      (Search w₂ (Search w₁ c query₁ typ₁ limit₁ market₁).client
        query₂ typ₂ limit₂ market₂).sent) =
      tokenCalls (Search w₁ c query₁ typ₁ limit₁ market₁).sent ∧
    tokenCalls (Search w₁ c query₁ typ₁ limit₁ market₁).sent ≤ 1 ∧
    (∀ req ∈ (Search w₂ (Search w₁ c query₁ typ₁ limit₁ market₁).client
        query₂ typ₂ limit₂ market₂).sent,
      GoMap.lookup req.Header "Authorization" =
        some ((Search w₁ c query₁ typ₁ limit₁ market₁).client.tokenType ++ " " ++
          (Search w₁ c query₁ typ₁ limit₁ market₁).client.token)) ∧
    (Search w₂ (Search w₁ c query₁ typ₁ limit₁ market₁).client
      query₂ typ₂ limit₂ market₂).client = (Search w₁ c query₁ typ₁ limit₁ market₁).client ∧
    (TrimSpace query₂ ≠ "" →
      ∀ u, w₂.urlParse ((Search w₁ c query₁ typ₁ limit₁ market₁).client.APIBaseURL
        ++ "/v1/search") = .ok u →
      w₂.newRequest "GET" ((Search w₁ c query₁ typ₁ limit₁ market₁).client.APIBaseURL
          ++ "/v1/search")
        (searchQuery u (TrimSpace query₂) typ₂
          (if limit₂ ≤ 0 then 10 else if limit₂ > 50 then 50 else limit₂) (TrimSpace market₂))
        = none →
      ∃ req, (Search w₂ (Search w₁ c query₁ typ₁ limit₁ market₁).client
          query₂ typ₂ limit₂ market₂).sent = [req] ∧
        req.Method = "GET" ∧
        req.URL = (Search w₁ c query₁ typ₁ limit₁ market₁).client.APIBaseURL ++ "/v1/search" ∧
        GoMap.lookup req.Header "Authorization" =
          some ((Search w₁ c query₁ typ₁ limit₁ market₁).client.tokenType ++ " " ++
            (Search w₁ c query₁ typ₁ limit₁ market₁).client.token)) ∧
    (c.token = "" →
      tokenCalls (Search w₁ c query₁ typ₁ limit₁ market₁).sent = 1 ∧
      tokenCalls ((Search w₁ c query₁ typ₁ limit₁ market₁).sent ++
        (Search w₂ (Search w₁ c query₁ typ₁ limit₁ market₁).client
          query₂ typ₂ limit₂ market₂).sent) = 1) := by
  have hmain := Search_second_cached w₁ w₂ c query₁ query₂ typ₁ typ₂ limit₁ limit₂
    market₁ market₂ hquery htoken hexpiry
  have hne : (Search w₁ c query₁ typ₁ limit₁ market₁).client.token ≠ "" := by
    rw [(Search_cases w₁ c query₁ typ₁ limit₁ market₁ hquery).1]
    exact ensureToken_token_ne w₁ c htoken
  refine ⟨hmain.1, hmain.2.1, hmain.2.2.1, hmain.2.2.2.1, hmain.2.2.2.2, ?_, ?_⟩
  · intro hq u hparse hnew
    exact ⟨_, Search_cached_sends w₂ _ query₂ typ₂ limit₂ market₂ u hne hexpiry hq hparse hnew,
      rfl, rfl, GoMap.lookup_store_self GoMap.empty "Authorization" _⟩
  · intro hfresh
    have hone : tokenCalls (Search w₁ c query₁ typ₁ limit₁ market₁).sent = 1 := by
      rcases (Search_cases w₁ c query₁ typ₁ limit₁ market₁ hquery).2 with
        ⟨hsent, -⟩ | ⟨-, u, hsent, -⟩
      · rw [hsent]
        exact tokenCalls_ensureToken_fresh w₁ c hfresh htoken
      · rw [hsent, tokenCalls_append_searchRequest]
        exact tokenCalls_ensureToken_fresh w₁ c hfresh htoken
    exact ⟨hone, hmain.2.1.trans hone⟩

/-- The two searches of `TestSearch_Tracks_ClientCredentials`, the second one 100 seconds after
the first: one token request in all, and the second search sends one request, the `GET` with
`Bearer tok`. -/
theorem Search_reuses_cached_token_witness :
    tokenCalls ((Search (testWorld 0) (New "id" "secret") "hello world" TypeTrack 2 "").sent ++
      (Search (testWorld (100 * Second))
        (Search (testWorld 0) (New "id" "secret") "hello world" TypeTrack 2 "").client
        "hello world" TypeTrack 2 "").sent) = 1 ∧
    (∃ req, (Search (testWorld (100 * Second))
        (Search (testWorld 0) (New "id" "secret") "hello world" TypeTrack 2 "").client
        "hello world" TypeTrack 2 "").sent = [req] ∧
      req.Method = "GET" ∧
      GoMap.lookup req.Header "Authorization" = some "Bearer tok") ∧
    (Search (testWorld (100 * Second))
        (Search (testWorld 0) (New "id" "secret") "hello world" TypeTrack 2 "").client
        "hello world" TypeTrack 2 "").sent.map
      (fun r => (r.Method, GoMap.lookup r.Header "Authorization")) =
      [("GET", some "Bearer tok")] := by
  have h := Search_reuses_cached_token (testWorld 0) (testWorld (100 * Second))
    (New "id" "secret") "hello world" "hello world" TypeTrack TypeTrack 2 2 "" ""
    (by decide) (by decide) (by decide)
  refine ⟨(h.2.2.2.2.2.2 rfl).2, ?_, by decide⟩
  obtain ⟨req, hsent, hget, -, hauth⟩ := h.2.2.2.2.2.1 (by decide) GoMap.empty rfl rfl
  exact ⟨req, hsent, hget, hauth⟩

end Spotify

/-! ## The commands `volume set` and `search spotify` -/

namespace Cmd

/-- C16, as the code has it: the value that `volume set` passes to `SetGroupVolume` is the
integer that `strconv.Atoi` reads from the argument, passed once and only when the target is
valid and the client was created; an argument that `strconv.Atoi` refuses never reaches the
group audio client. -/
theorem groupVolumeSet_passes_parsed_integer (validateTarget : Option String)
    (newGroupAudioClient : Except String groupAudioClient) (arg : String) :
    (∀ v, v ∈ (groupVolumeSet validateTarget newGroupAudioClient [arg]).2 →
      Atoi arg = .ok v ∧ (groupVolumeSet validateTarget newGroupAudioClient [arg]).2 = [v] ∧
      validateTarget = none ∧ ∃ c, newGroupAudioClient = .ok c) ∧
    (∀ err, Atoi arg = .error err →
      (groupVolumeSet validateTarget newGroupAudioClient [arg]).2 = [] ∧
      (groupVolumeSet validateTarget newGroupAudioClient [arg]).1 ≠ none) := by
  cases validateTarget with
  | some terr =>
    refine ⟨fun v hv => ?_, fun err _ => ⟨rfl, ?_⟩⟩
    · cases hv
    · simp [groupVolumeSet]
  | none =>
    cases hatoi : Atoi arg with
    | error nerr =>
      have hdef : groupVolumeSet none newGroupAudioClient [arg] =
          (some (.atoi nerr), []) := by
        simp only [groupVolumeSet, hatoi]
      rw [hdef]
      refine ⟨fun v hv => ?_, fun err _ => ⟨rfl, ?_⟩⟩
      · cases hv
      · simp
    | ok n =>
      cases newGroupAudioClient with
      | error cerr =>
        have hdef : groupVolumeSet none (.error cerr) [arg] = (some (.client cerr), []) := by
          simp only [groupVolumeSet, hatoi]
        rw [hdef]
        refine ⟨fun v hv => ?_, fun err herr => ?_⟩
        · cases hv
        · cases herr
      | ok c =>
        have hdef : groupVolumeSet none (.ok c) [arg] =
            ((c.SetGroupVolume n).map CmdError.action, [n]) := by
          simp only [groupVolumeSet, hatoi]
        rw [hdef]
        refine ⟨fun v hv => ?_, fun err herr => ?_⟩
        · simp only [List.mem_singleton] at hv
          subst hv
          exact ⟨rfl, rfl, rfl, c, rfl⟩
        · cases herr

/-- The argument `42` reaches the client as 42, and the argument `loud` does not reach it. -/
theorem groupVolumeSet_passes_parsed_integer_witness :
    Atoi "42" = .ok 42 ∧
    (groupVolumeSet none (.ok acceptingClient) ["42"]).2 = [42] ∧
    (groupVolumeSet none (.ok acceptingClient) ["loud"]).2 = [] :=
  ⟨((groupVolumeSet_passes_parsed_integer none (.ok acceptingClient) "42").1 42
      (by decide)).1,
    ((groupVolumeSet_passes_parsed_integer none (.ok acceptingClient) "42").1 42
      (by decide)).2.1,
    ((groupVolumeSet_passes_parsed_integer none (.ok acceptingClient) "loud").2 ⟨"loud"⟩
      rfl).1⟩

/-- The arguments `150` and `-5` are integers outside 0..100 and reach `SetGroupVolume`
unchanged, so the values passed to it are not all in 0..100. -/
theorem groupVolumeSet_out_of_range :
    (groupVolumeSet none (.ok acceptingClient) ["150"]).2 = [150] ∧
    (groupVolumeSet none (.ok acceptingClient) ["-5"]).2 = [-5] ∧
    ¬ ∀ (arg : String) (v : Int),
      v ∈ (groupVolumeSet none (.ok acceptingClient) [arg]).2 → 0 ≤ v ∧ v ≤ 100 := by
  refine ⟨by decide, by decide, fun h => ?_⟩
  have h150 := h "150" 150 (by decide)
  omega

/-- C17: with `--open` or `--enqueue` set, the selection either returns an error, which is
never an index panic and which, when the flags are consistent and a target is given, means that
the result list is empty or the effective index exceeds its length; or it selects
`results[i-1]` with `1 ≤ i ≤ len(results)`, where `i` is the given index if it is positive and
1 otherwise. -/
theorem selectResult_in_bounds (doOpen doEnqueue : Bool) (ip name : String) (index : Int)
    (results : List Spotify.Result) (hflag : (doOpen || doEnqueue) = true) :
    (∃ err, selectResult doOpen doEnqueue ip name index (.ok results) = .error err ∧
      err ≠ CmdError.runtimePanic ∧
      ((doOpen && doEnqueue) = false → ¬ (ip = "" ∧ name = "") →
        results = [] ∨ (if index > 0 then index else 1) > results.length)) ∨
    (∃ r, selectResult doOpen doEnqueue ip name index (.ok results) = .ok (some r) ∧
      1 ≤ (if index > 0 then index else 1) ∧
      (if index > 0 then index else 1) ≤ results.length ∧
      results[((if index > 0 then index else 1) - 1).toNat]? = some r) := by
  have hindex : (if index ≤ 0 then (1 : Int) else index) = (if index > 0 then index else 1) := by
    split_ifs <;> omega
  have hpos : 1 ≤ (if index > 0 then index else 1) := by
    split_ifs <;> omega
  unfold selectResult
  rw [hindex]
  generalize (if index > 0 then index else 1) = i at hpos ⊢
  by_cases hboth : (doOpen && doEnqueue) = true
  · left
    rw [if_pos hboth]
    exact ⟨_, rfl, by simp, fun h => by simp [hboth] at h⟩
  · rw [if_neg hboth]
    by_cases htarget : ((doOpen || doEnqueue) && decide (ip = "") && decide (name = "")) = true
    · left
      rw [if_pos htarget]
      refine ⟨_, rfl, by simp, fun _ hne => ?_⟩
      simp only [hflag, Bool.true_and, Bool.and_eq_true, decide_eq_true_eq] at htarget
      exact absurd htarget hne
    · rw [if_neg htarget]
      dsimp only
      by_cases hlen : results.length = 0
      · left
        rw [if_pos hlen]
        exact ⟨_, rfl, by simp, fun _ _ => Or.inl (List.length_eq_zero.mp hlen)⟩
      · rw [if_neg hlen, if_pos hflag]
        by_cases hout : i > results.length
        · left
          rw [if_pos hout]
          exact ⟨_, rfl, by simp, fun _ _ => Or.inr hout⟩
        · right
          rw [if_neg hout]
          have hlt : (i - 1).toNat < results.length := by omega
          have hget : results[(i - 1).toNat]? = some (results[(i - 1).toNat]) :=
            List.getElem?_eq_getElem hlt
          have hslice : sliceIndex results (i - 1) = some (results[(i - 1).toNat]) := by
            unfold sliceIndex
            rw [if_neg (by omega), hget]
          rw [hslice]
          exact ⟨_, rfl, hpos, by omega, hget⟩

/-- With three results, `--index 0` selects the first, `--index 3` the third, and `--index 4`
is refused as out of range. -/
theorem selectResult_in_bounds_witness :
    selectResult true false "192.168.1.10" "" 0 (.ok testResults) = .ok testResults[0]? ∧
    selectResult true false "192.168.1.10" "" 3 (.ok testResults) = .ok testResults[2]? ∧
    selectResult false true "" "Office" 4 (.ok testResults) = .error (.indexOutOfRange 4 3) ∧
    ((∃ err, selectResult false true "" "Office" 3 (.ok testResults) = .error err ∧
        err ≠ CmdError.runtimePanic ∧
        ((false && true) = false → ¬ (("" : String) = "" ∧ "Office" = "") →
          testResults = [] ∨ (if (3 : Int) > 0 then (3 : Int) else 1) > testResults.length)) ∨
      (∃ r, selectResult false true "" "Office" 3 (.ok testResults) = .ok (some r) ∧
        1 ≤ (if (3 : Int) > 0 then (3 : Int) else 1) ∧
        (if (3 : Int) > 0 then (3 : Int) else 1) ≤ testResults.length ∧
        testResults[((if (3 : Int) > 0 then (3 : Int) else 1) - 1).toNat]? = some r)) :=
  ⟨rfl, rfl, rfl, selectResult_in_bounds false true "" "Office" 3 testResults rfl⟩

end Cmd

/-! ## Presentation maps: output invariant and precedence -/

theorem TrimSpace_ends (s : String) :
    (∀ ch, (TrimSpace s).data.head? = some ch → isSpace ch = false) ∧
    (∀ ch, (TrimSpace s).data.getLast? = some ch → isSpace ch = false) := by
  have hdata : (TrimSpace s).data = (s.data.dropWhile isSpace).rdropWhile isSpace := rfl
  rw [hdata]
  constructor
  · intro ch hch
    have hne : (s.data.dropWhile isSpace).rdropWhile isSpace ≠ [] := by
      intro h
      rw [h] at hch
      cases hch
    have hpfx : (s.data.dropWhile isSpace).rdropWhile isSpace <+: s.data.dropWhile isSpace :=
      List.rdropWhile_prefix isSpace _
    rw [List.head?_eq_head hne, Option.some.injEq, hpfx.head hne] at hch
    rw [← hch]
    exact List.head_dropWhile_not isSpace s.data (hpfx.ne_nil hne)
  · intro ch hch
    have hne : (s.data.dropWhile isSpace).rdropWhile isSpace ≠ [] := by
      intro h
      rw [h] at hch
      cases hch
    rw [List.getLast?_eq_getLast _ hne, Option.some.injEq] at hch
    rw [← hch]
    exact Bool.eq_false_iff.mpr (List.rdropWhile_last_not isSpace _ hne)

section StoreLoopEntries

variable {α : Type} (step : GoMap String → α → GoMap String) (key val : α → String)

theorem entries_foldl (P : String → String → Prop)
    (hstep : ∀ m x, step m x =
      if key x ≠ "" ∧ val x ≠ "" then GoMap.store m (key x) (val x) else m)
    (hP : ∀ x, key x ≠ "" → val x ≠ "" → P (key x) (val x))
    (xs : List α) (m : GoMap String)
    (hm : ∀ k v, GoMap.lookup m k = some v → P k v) :
    ∀ k v, GoMap.lookup (xs.foldl step m) k = some v → P k v := by
  induction xs generalizing m with
  | nil => exact hm
  | cons y ys ih =>
    rw [List.foldl_cons]
    apply ih
    intro k v hk
    rw [hstep] at hk
    by_cases hu : key y ≠ "" ∧ val y ≠ ""
    · rw [if_pos hu] at hk
      by_cases hky : key y = k
      · rw [← hky, GoMap.lookup_store_self, Option.some.injEq] at hk
        rw [← hky, ← hk]
        exact hP y hu.1 hu.2
      · rw [GoMap.lookup_store_ne m (key y) k (val y) hky] at hk
        exact hm k v hk
    · rw [if_neg hu] at hk
      exact hm k v hk

theorem lookup_foldl_last_writer
    (hstep : ∀ m x, step m x =
      if key x ≠ "" ∧ val x ≠ "" then GoMap.store m (key x) (val x) else m)
    (pre post : List α) (x : α) (m : GoMap String) (hu : key x ≠ "" ∧ val x ≠ "")
    (hlast : ∀ y ∈ post, key y ≠ "" ∧ val y ≠ "" → key y ≠ key x) :
    GoMap.lookup ((pre ++ x :: post).foldl step m) (key x) = some (val x) := by
  rw [List.foldl_append, List.foldl_cons,
    lookup_foldl_of_no_writer step key val hstep post _ (key x)
      (fun y hy hk hy' => hlast y hy hy' hk),
    hstep, if_pos hu]
  exact GoMap.lookup_store_self _ (key x) (val x)

end StoreLoopEntries

/-- C18: on every input on which `parsePresentationMapXML` succeeds, every key and every value
of the returned mapping is non-empty and neither starts nor ends with white space; the last
CustomCategory entry with a key gives the value of that key, whatever the Category entries
are; and the last Category entry with a key gives its value when no CustomCategory entry has
that key.  An entry is an element whose trimmed id and trimmed mapped value are non-empty. -/
theorem parsePresentationMapXML_invariant_precedence
    (xmlUnmarshal : List UInt8 → Except String pmapEnvelope) (raw : List UInt8)
    (m : GoMap String) (hparse : parsePresentationMapXML xmlUnmarshal raw = .ok m) :
    (∀ k v, GoMap.lookup m k = some v →
      k ≠ "" ∧ v ≠ "" ∧
      (∀ ch, k.data.head? = some ch → isSpace ch = false) ∧
      (∀ ch, k.data.getLast? = some ch → isSpace ch = false) ∧
      (∀ ch, v.data.head? = some ch → isSpace ch = false) ∧
      (∀ ch, v.data.getLast? = some ch → isSpace ch = false)) ∧
    (∀ k ∈ GoMap.keys m, ∃ v, GoMap.lookup m k = some v) ∧
    ∃ env, xmlUnmarshal raw = .ok env ∧ ∀ sc, env.SearchCategories = some sc →
      (∀ pre c post, sc.CustomCategories = pre ++ c :: post →
        TrimSpace c.StringID ≠ "" → TrimSpace c.MappedID ≠ "" →
        (∀ x ∈ post, TrimSpace x.StringID ≠ "" ∧ TrimSpace x.MappedID ≠ "" →
          TrimSpace x.StringID ≠ TrimSpace c.StringID) →
        GoMap.lookup m (TrimSpace c.StringID) = some (TrimSpace c.MappedID)) ∧
      (∀ pre c post, sc.Categories = pre ++ c :: post →
        TrimSpace c.ID ≠ "" →
        (if TrimSpace c.MappedID = "" then TrimSpace c.AltID else TrimSpace c.MappedID) ≠ "" →
        (∀ x ∈ post, TrimSpace x.ID ≠ "" ∧
          (if TrimSpace x.MappedID = "" then TrimSpace x.AltID else TrimSpace x.MappedID) ≠ "" →
          TrimSpace x.ID ≠ TrimSpace c.ID) →
        (∀ x ∈ sc.CustomCategories, TrimSpace x.StringID ≠ "" ∧ TrimSpace x.MappedID ≠ "" →
          TrimSpace x.StringID ≠ TrimSpace c.ID) →
        GoMap.lookup m (TrimSpace c.ID) =
          some (if TrimSpace c.MappedID = "" then TrimSpace c.AltID
            else TrimSpace c.MappedID)) := by
  have hkeys : ∀ k ∈ GoMap.keys m, ∃ v, GoMap.lookup m k = some v := by
    intro k hk
    cases hl : GoMap.lookup m k with
    | none => exact absurd hk ((GoMap.lookup_eq_none_iff m k).mp hl)
    | some v => exact ⟨v, rfl⟩
  cases hdec : xmlUnmarshal raw with
  | error err =>
    simp only [parsePresentationMapXML, hdec] at hparse
    cases hparse
  | ok env =>
    cases hsc : env.SearchCategories with
    | none =>
      simp only [parsePresentationMapXML, hdec, hsc, Except.ok.injEq] at hparse
      subst hparse
      refine ⟨fun k v hk => ?_, hkeys, env, rfl, fun sc hsc' => ?_⟩
      · cases hk
      · rw [hsc] at hsc'
        cases hsc'
    | some sc =>
      rw [parsePresentationMapXML_ok xmlUnmarshal raw env sc hdec hsc, Except.ok.injEq] at hparse
      subst hparse
      refine ⟨?_, hkeys, env, rfl, fun sc' hsc' => ?_⟩
      · apply entries_foldl customCategoryStep (fun x => TrimSpace x.StringID)
          (fun x => TrimSpace x.MappedID)
          (fun k v => k ≠ "" ∧ v ≠ "" ∧
            (∀ ch, k.data.head? = some ch → isSpace ch = false) ∧
            (∀ ch, k.data.getLast? = some ch → isSpace ch = false) ∧
            (∀ ch, v.data.head? = some ch → isSpace ch = false) ∧
            (∀ ch, v.data.getLast? = some ch → isSpace ch = false)) customCategoryStep_eq
        · intro x hid hval
          exact ⟨hid, hval, (TrimSpace_ends x.StringID).1, (TrimSpace_ends x.StringID).2,
            (TrimSpace_ends x.MappedID).1, (TrimSpace_ends x.MappedID).2⟩
        · apply entries_foldl categoryStep (fun x => TrimSpace x.ID)
            (fun x => if TrimSpace x.MappedID = "" then TrimSpace x.AltID
              else TrimSpace x.MappedID)
            (fun k v => k ≠ "" ∧ v ≠ "" ∧
              (∀ ch, k.data.head? = some ch → isSpace ch = false) ∧
              (∀ ch, k.data.getLast? = some ch → isSpace ch = false) ∧
              (∀ ch, v.data.head? = some ch → isSpace ch = false) ∧
              (∀ ch, v.data.getLast? = some ch → isSpace ch = false)) categoryStep_eq
          · intro x hid hval
            refine ⟨hid, hval, (TrimSpace_ends x.ID).1, (TrimSpace_ends x.ID).2, ?_, ?_⟩
            · dsimp only
              split
              · exact (TrimSpace_ends x.AltID).1
              · exact (TrimSpace_ends x.MappedID).1
            · dsimp only
              split
              · exact (TrimSpace_ends x.AltID).2
              · exact (TrimSpace_ends x.MappedID).2
          · intro k v hk
            cases hk
      · rw [hsc, Option.some.injEq] at hsc'
        subst hsc'
        constructor
        · intro pre c post hcustoms hid hval hlast
          rw [hcustoms]
          exact lookup_foldl_last_writer customCategoryStep (fun x => TrimSpace x.StringID)
            (fun x => TrimSpace x.MappedID) customCategoryStep_eq pre post c _ ⟨hid, hval⟩ hlast
        · intro pre c post hcats hid hval hlast hcustom
          rw [lookup_foldl_of_no_writer customCategoryStep (fun x => TrimSpace x.StringID)
            (fun x => TrimSpace x.MappedID) customCategoryStep_eq sc.CustomCategories _ _
            (fun x hx hk hu => hcustom x hx hu hk), hcats]
          exact lookup_foldl_last_writer categoryStep (fun x => TrimSpace x.ID)
            (fun x => if TrimSpace x.MappedID = "" then TrimSpace x.AltID
              else TrimSpace x.MappedID) categoryStep_eq pre post c _ ⟨hid, hval⟩ hlast

/-- A document with two Categories `genres`, a Category `Blogs` and three CustomCategories
`Blogs`, the last one with a blank `mappedId`: the second `genres` wins, and the last
CustomCategory with a mapped value wins over the first one and over the Category. -/
theorem parsePresentationMapXML_invariant_precedence_witness :
    parsePresentationMapXML (fun _ => .ok sharedKeysPresentationMap) [] =
      .ok [("genres", "search:genre2"), ("Blogs", "SBLG2")] ∧
    GoMap.lookup [("genres", "search:genre2"), ("Blogs", "SBLG2")] "Blogs" = some "SBLG2" ∧
    ("Blogs" ≠ "" ∧ "SBLG2" ≠ "") := by
  have h := parsePresentationMapXML_invariant_precedence
    (fun _ => .ok sharedKeysPresentationMap) [] [("genres", "search:genre2"), ("Blogs", "SBLG2")]
    rfl
  refine ⟨rfl, ?_, (h.1 "Blogs" "SBLG2" (by decide)).1, (h.1 "Blogs" "SBLG2" (by decide)).2.1⟩
  obtain ⟨env, henv, hprec⟩ := h.2.2
  cases henv
  exact (hprec _ rfl).1 [⟨" Blogs", "SBLG1"⟩] ⟨"Blogs ", " SBLG2 "⟩ [⟨"Blogs", " "⟩] rfl
    (by decide) (by decide) (by decide)

end Sonos
